import Mathlib

/- Verification development for the natural-language-to-Terraform
   provisioning pipeline (nlp_converter.py, terraform_validator.py,
   terraform_applier.py).

   Text is modelled as `List Char`.  The Python string operations used by
   the source (find, rfind, split, replace, strip, rstrip, count, `in`)
   are embedded below with Python semantics.  The three Lambda handlers
   are embedded as pure functions from an environment (the event fields,
   the blob-store responses and the subprocess outcomes) to a trace of
   externally visible effects together with a result that is either a
   returned record or a propagated error message. -/

set_option maxRecDepth 10000

/-- Character-list view of a string literal. -/
def tl (s : String) : List Char := s.data

/-- The ASCII whitespace characters stripped by Python `str.strip` / `str.rstrip`. -/
def pyIsSpace (c : Char) : Bool :=
  c = ' ' || c = '\t' || c = '\n' || c = '\r' || c = '\x0b' || c = '\x0c'

/-- Python `str.lstrip()`. -/
def pyLstrip (l : List Char) : List Char := l.dropWhile pyIsSpace

/-- Python `str.rstrip()`. -/
def pyRstrip (l : List Char) : List Char := (l.reverse.dropWhile pyIsSpace).reverse

/-- Python `str.strip()`. -/
def pyStrip (l : List Char) : List Char := pyRstrip (pyLstrip l)

/-- Index of the first character satisfying `p` (`none` models Python's `-1`). -/
def pyFindIdx (p : Char → Bool) : List Char → Option Nat
  | [] => none
  | c :: cs => if p c then some 0 else (pyFindIdx p cs).map (· + 1)

/-- All positions `i` of `s` at which the pattern `sub` occurs, i.e. `sub`
is a prefix of `s.drop i`. -/
def matchPositions (sub s : List Char) : List Nat :=
  (List.range (s.length + 1)).filter (fun i => decide (sub <+: s.drop i))

/-- Python `s.rfind(sub)`: the largest position at which `sub` occurs
(`none` models Python's `-1`). -/
def pyRFind (sub s : List Char) : Option Nat := (matchPositions sub s).getLast?

/-- Scanner of Python `s.replace(old, new)` for a nonempty pattern
`o :: os`: `skip` counts the characters still to be consumed by the
occurrence just replaced, making the scan left-to-right and
non-overlapping (structurally recursive on the text). -/
def replaceGo (o : Char) (os new : List Char) : Nat → List Char → List Char
  | _, [] => []
  | skip + 1, _ :: cs => replaceGo o os new skip cs
  | 0, c :: cs =>
    if (o :: os) <+: (c :: cs) then new ++ replaceGo o os new os.length cs
    else c :: replaceGo o os new 0 cs

/-- Python `s.replace(old, new)` for a nonempty pattern `o :: os`. -/
def replaceNE (o : Char) (os new s : List Char) : List Char := replaceGo o os new 0 s

/-- Python `s.replace(old, new)`.  An empty pattern inserts `new` at every
position, as Python does. -/
def pyReplace (s old new : List Char) : List Char :=
  match old with
  | [] => new ++ (s.map (fun c => c :: new)).flatten
  | o :: os => replaceNE o os new s

/-- Scanner of Python `s.split(sep)` for a nonempty separator `o :: os`,
with the same skip-counter scheme as `replaceGo`. -/
def splitGo (o : Char) (os : List Char) : Nat → List Char → List (List Char)
  | _, [] => [[]]
  | skip + 1, _ :: cs => splitGo o os skip cs
  | 0, c :: cs =>
    if (o :: os) <+: (c :: cs) then [] :: splitGo o os os.length cs
    else
      match splitGo o os 0 cs with
      | [] => [[c]]
      | h :: t => (c :: h) :: t

/-- Python `s.split(sep)` for a nonempty separator `o :: os`. -/
def pySplitNE (o : Char) (os s : List Char) : List (List Char) := splitGo o os 0 s

/-- Python `s.split(sep)`.  Python raises on an empty separator, which the
source never passes; that case is mapped to `[s]`. -/
def pySplit (sep s : List Char) : List (List Char) :=
  match sep with
  | [] => [s]
  | o :: os => pySplitNE o os s

/-- The number of positions of `s` at which the pattern `p` occurs
(overlapping occurrences all counted; the position at the very end of `s`
is counted as well, which only an empty pattern can match). -/
def countMatches (p : List Char) : List Char → Nat
  | [] => if p <+: ([] : List Char) then 1 else 0
  | c :: cs => (if p <+: (c :: cs) then 1 else 0) + countMatches p cs

/-- The number of matches of the Python regex `(?<!\\)"` in the remaining
text: double quotes not immediately preceded by a backslash.  `prev` is
the character preceding the remaining text, if any. -/
def countUnescapedQuotes : Option Char → List Char → Nat
  | _, [] => 0
  | prev, c :: cs =>
      (if c = '"' ∧ prev ≠ some '\\' then 1 else 0) + countUnescapedQuotes (some c) cs

/-- The Markdown fence delimiter looked for by `clean_terraform_file`. -/
def fence : List Char := tl "```"

/-- `clean_terraform_file` (terraform_validator.py lines 24-50; the identical
function also appears in terraform_applier.py lines 28-54), as the pure
transformation applied to the file content.  `pyFindIdx`/`pyRFind` return
`none` where Python's `find`/`rfind` return `-1`, so the guards
`first_newline > 0` and `closing_backticks > first_newline` become the
corresponding matches below. -/
def clean_terraform_file (content : List Char) : List Char :=
  if fence <+: content then
    match pyFindIdx (fun c => c = '\n') content with
    | some first_newline =>
        if 0 < first_newline then
          match pyRFind fence content with
          | some closing =>
              if first_newline < closing then
                pyStrip ((content.drop (first_newline + 1)).take (closing - (first_newline + 1)))
              else
                pyStrip (content.drop (first_newline + 1))
          | none => pyStrip (content.drop (first_newline + 1))
        else content
    | none => content
  else content

/-- `basic_syntax_check` (terraform_validator.py lines 52-77): the three
structural diagnostics, collected in source order.  Braces are written
with hex escapes throughout this file. -/
def basic_syntax_check (content : List Char) : List (List Char) :=
  (if content.count '\x7b' ≠ content.count '\x7d' then
      [tl ("Unbalanced braces: " ++ toString (content.count '\x7b') ++ " opening vs "
            ++ toString (content.count '\x7d') ++ " closing")]
    else [])
  ++ (if countUnescapedQuotes none content % 2 ≠ 0 then
      [tl ("Unbalanced double quotes: " ++ toString (countUnescapedQuotes none content) ++ " found")]
    else [])
  ++ (if ¬ (tl "provider" <:+: content) then [tl "No provider block found"] else [])

/-- One externally visible effect of a stage invocation. -/
inductive Ev
  | download (bucket key : List Char)
  | uploadFile (bucket key : List Char)
  | putObject (bucket key body : List Char)
  | publish (subject message : List Char)
  | copyBin (src dst : List Char)
  | spawn (bin : List Char) (args : List (List Char))
  | kill
deriving DecidableEq, Repr

/-- Outcome of one `subprocess.Popen` + `communicate(timeout=780)` round:
the process completed with a return code and captured output, the ceiling
expired (`subprocess.TimeoutExpired`), or some other exception was raised
inside the `try` block. -/
inductive ExecOutcome
  | completed (returncode : Int) (stdout stderr : List Char)
  | timedOut
  | execError (msg : List Char)
deriving DecidableEq, Repr

/-- The filesystem facts `run_terraform_command` consults: whether the
binary is at the known install location `TERRAFORM_LAYER/terraform`, and
the `os.walk('/opt')` enumeration as a list of (root, files) entries. -/
structure TfFs where
  binAtLayer : Bool
  walk : List (List Char × List (List Char))
deriving DecidableEq, Repr

/-- `os.path.join(a, b)` for a relative second component. -/
def pathJoin (a b : List Char) : List Char :=
  if a = [] then b
  else if a.getLast? = some '/' then a ++ b
  else a ++ '/' :: b

/-- The default `TERRAFORM_LAYER` install location. -/
def TERRAFORM_LAYER : List Char := tl "/opt/bin"

/-- The hard wall-clock ceiling passed to `communicate`, in seconds
(`timeout=780` in terraform_applier.py line 228). -/
def TF_TIMEOUT_SECONDS : Nat := 780

/-- Binary resolution in `run_terraform_command` (terraform_applier.py lines
171-198): the known install location first, otherwise the first `os.walk`
entry whose files contain `terraform`, raising `FileNotFoundError` when
there is none. -/
def resolveTerraformBin (fs : TfFs) : Except (List Char) (List Char) :=
  if fs.binAtLayer then .ok (pathJoin TERRAFORM_LAYER (tl "terraform"))
  else
    match fs.walk.find? (fun e => decide (tl "terraform" ∈ e.2)) with
    | some e => .ok (pathJoin e.1 (tl "terraform"))
    | none => .error (tl "Terraform binary not found in Lambda environment")

/-- `run_terraform_command` (terraform_applier.py lines 167-249): resolve
the binary, stage it to /tmp, then run it.  A completed process yields
`(returncode == 0, stdout-or-stderr)`; a timeout kills the process and
yields the fixed timeout message; any other exception inside the `try`
yields its text.  Only the `FileNotFoundError` of binary resolution
escapes as a raised error. -/
def run_terraform_command (fs : TfFs) (oc : ExecOutcome) (command : List (List Char)) :
    List Ev × Except (List Char) (Bool × List Char) :=
  match resolveTerraformBin fs with
  | .error e => ([], .error e)
  | .ok bin =>
      let tmp := tl "/tmp/terraform"
      match oc with
      | .completed rc out err =>
          ([Ev.copyBin bin tmp, Ev.spawn tmp command],
            if rc = 0 then .ok (true, out) else .ok (false, err))
      | .timedOut =>
          ([Ev.copyBin bin tmp, Ev.spawn tmp command, Ev.kill],
            .ok (false, tl "Command timed out after 4 minutes"))
      | .execError m =>
          ([Ev.copyBin bin tmp, Ev.spawn tmp command], .ok (false, m))

/-- The AWS provider block header searched for by `create_provider_config`. -/
def providerHeader : List Char := tl "provider \"aws\""

/-- The region line appended by `create_provider_config` to a provider
block that lacks a region. -/
def regionLine : List Char := tl "\n  region = \"us-east-1\"\n"

/-- The versions.tf content written when main.tf already declares the
provider (terraform_applier.py lines 108-118). -/
def versionsNoProvider : List Char :=
  tl "\nterraform \x7b\n  required_providers \x7b\n    aws = \x7b\n      source  = \"hashicorp/aws\"\n      version = \"~> 5.0\"\n    \x7d\n  \x7d\n  required_version = \">= 1.2.0\"\n\x7d\n"

/-- The versions.tf content written when main.tf does not declare the
provider (terraform_applier.py lines 120-135). -/
def versionsWithProvider : List Char :=
  versionsNoProvider
    ++ tl "\n# Explicitly set the AWS provider region to us-east-1\nprovider \"aws\" \x7b\n  region = \"us-east-1\"\n\x7d\n"

/-- `create_provider_config` (terraform_applier.py lines 75-141) as the
pure transformation: given the current main.tf content, return the
possibly rewritten main.tf content together with the versions.tf content
written alongside it.  The slice examined for a region is
`content.split('provider "aws"')[1].split('}')[0]`, exactly as in the
source. -/
def create_provider_config (content : List Char) : List Char × List Char :=
  if providerHeader <:+: content then
    let provider_block :=
      (pySplit (tl "\x7d") ((pySplit providerHeader content).getD 1 [])).getD 0 []
    if ¬ (tl "region" <:+: provider_block) then
      let new_provider_block := pyRstrip provider_block ++ regionLine
      (pyReplace content provider_block new_provider_block, versionsNoProvider)
    else (content, versionsNoProvider)
  else (content, versionsWithProvider)

/-- The event fields the Validate stage extracts; a missing field models a
`KeyError` (whose text is modelled as `KeyError: field`). -/
structure ValidatorEvent where
  requestId : Option (List Char)
  s3Bucket : Option (List Char)
  s3Key : Option (List Char)
deriving DecidableEq, Repr

/-- Environment of one Validate invocation: the incoming event and the
blob store's response to the download. -/
structure ValidatorEnv where
  event : ValidatorEvent
  downloadResult : Except (List Char) (List Char)
deriving Repr

/-- The validation-result record stored by the Validate stage. -/
structure ValidationResult where
  syntax_check : List Char
  errors : List (List Char)
  status : List Char
deriving DecidableEq, Repr

/-- `json.dumps` of a validation-result record, modelled as the evident
rendering. -/
def renderValidationResult (r : ValidationResult) : List Char :=
  tl "\x7b\"syntax_check\": \"" ++ r.syntax_check ++ tl "\", \"errors\": ["
    ++ List.intercalate (tl ", ") (r.errors.map (fun e => '"' :: e ++ tl "\""))
    ++ tl "], \"status\": \"" ++ r.status ++ tl "\"\x7d"

/-- The handoff record returned by the Validate stage. -/
structure ValidateResult where
  requestId : List Char
  s3Bucket : List Char
  s3TerraformKey : List Char
  s3ValidationKey : List Char
  status : List Char
  message : List Char
deriving DecidableEq, Repr

/-- Body of the Validate stage's `lambda_handler` (terraform_validator.py
lines 79-132), i.e. its `try` block: the trace of effects plus either the
handoff record or the raised error text. -/
def validator_body (env : ValidatorEnv) : List Ev × Except (List Char) ValidateResult :=
  match env.event.requestId with
  | none => ([], .error (tl "KeyError: requestId"))
  | some request_id =>
  match env.event.s3Bucket with
  | none => ([], .error (tl "KeyError: s3Bucket"))
  | some s3_bucket =>
  match env.event.s3Key with
  | none => ([], .error (tl "KeyError: s3Key"))
  | some s3_key =>
  let t0 := [Ev.download s3_bucket s3_key]
  match env.downloadResult with
  | .error e => (t0, .error e)
  | .ok content =>
      let cleaned := clean_terraform_file content
      let syntax_errors := basic_syntax_check cleaned
      if syntax_errors ≠ [] then
        (t0, .error (tl "Terraform syntax validation failed:\n"
          ++ List.intercalate (tl "\n") syntax_errors))
      else
        let validation_result : ValidationResult :=
          ⟨if syntax_errors = [] then tl "PASSED" else tl "FAILED",
            syntax_errors,
            if syntax_errors = [] then tl "SUCCESS" else tl "FAILED"⟩
        let vkey := tl "terraform_validation/" ++ request_id ++ tl "/validation_result.json"
        (t0 ++ [Ev.putObject s3_bucket vkey (renderValidationResult validation_result)],
          .ok ⟨request_id, s3_bucket, s3_key, vkey, tl "SUCCESS",
            tl "Successfully validated Terraform code"⟩)

/-- The Validate stage's `lambda_handler` including its `except` wrapper:
on any error the terminal notification is published, then the same error
propagates. -/
def lambda_handler_validator (env : ValidatorEnv) :
    List Ev × Except (List Char) ValidateResult :=
  match validator_body env with
  | (t, .ok r) => (t, .ok r)
  | (t, .error e) =>
      (t ++ [Ev.publish (tl "Error in Terraform Validation")
        (tl "Failed to validate Terraform code for request "
          ++ env.event.requestId.getD (tl "unknown") ++ tl ": " ++ e)],
        .error e)

/-- Environment of one Convert invocation: the incoming event's `input`
field, the freshly minted `uuid4` request identifier, the `STATE_BUCKET`
environment value, and the Bedrock call's response. -/
structure NlpEnv where
  input : Option (List Char)
  uuid : List Char
  stateBucket : List Char
  bedrockResult : Except (List Char) (List Char)
deriving Repr

/-- The handoff record returned by the Convert stage. -/
structure NlpResult where
  requestId : List Char
  s3Bucket : List Char
  s3Key : List Char
  status : List Char
  message : List Char
deriving DecidableEq, Repr

/-- Body of the Convert stage's `lambda_handler` (nlp_converter.py lines
18-82), i.e. its `try` block. -/
def nlp_body (env : NlpEnv) : List Ev × Except (List Char) NlpResult :=
  match env.input with
  | none => ([], .error (tl "KeyError: input"))
  | some _natural_language_request =>
      let request_id := env.uuid
      match env.bedrockResult with
      | .error e => ([], .error e)
      | .ok terraform_code =>
          let s3_key := tl "terraform_code/" ++ request_id ++ tl "/main.tf"
          ([Ev.putObject env.stateBucket s3_key terraform_code],
            .ok ⟨request_id, env.stateBucket, s3_key, tl "SUCCESS",
              tl "Successfully converted natural language to Terraform code"⟩)

/-- The Convert stage's `lambda_handler` including its `except` wrapper
(nlp_converter.py lines 83-91): the published failure message is
`"Failed to process request: " ++ e` and mentions no request identifier. -/
def lambda_handler_nlp (env : NlpEnv) : List Ev × Except (List Char) NlpResult :=
  match nlp_body env with
  | (t, .ok r) => (t, .ok r)
  | (t, .error e) =>
      (t ++ [Ev.publish (tl "Error in NLP to Terraform Conversion")
        (tl "Failed to process request: " ++ e)], .error e)

/-- The event fields the Apply stage extracts; a missing field models a
`KeyError`. -/
structure ApplyEvent where
  requestId : Option (List Char)
  s3Bucket : Option (List Char)
  s3TerraformKey : Option (List Char)
deriving DecidableEq, Repr

/-- Environment of one Apply invocation: the incoming event, the blob
store's response to the download, the filesystem facts for binary
resolution, and the subprocess outcome of each of the four Terraform
invocations (`init`, `plan`, `apply`, `output`). -/
structure ApplyEnv where
  event : ApplyEvent
  downloadResult : Except (List Char) (List Char)
  fs : TfFs
  initOutcome : ExecOutcome
  planOutcome : ExecOutcome
  applyOutcome : ExecOutcome
  outputOutcome : ExecOutcome
deriving Repr

/-- The handoff record returned by the Apply stage. -/
structure ApplyResult where
  requestId : List Char
  s3Bucket : List Char
  s3TerraformKey : List Char
  s3OutputsKey : List Char
  s3ApplyLogsKey : List Char
  status : List Char
  message : List Char
deriving DecidableEq, Repr

/-- Body of the Apply stage's `lambda_handler` (terraform_applier.py lines
251-360), i.e. its `try` block: download, clean, synthesize configuration,
then `init`, `plan` (upload plan), `apply` (persist log, then raise on
failure), best-effort `output`, success notification and handoff record. -/
def applier_body (env : ApplyEnv) : List Ev × Except (List Char) ApplyResult :=
  match env.event.requestId with
  | none => ([], .error (tl "KeyError: requestId"))
  | some request_id =>
  match env.event.s3Bucket with
  | none => ([], .error (tl "KeyError: s3Bucket"))
  | some s3_bucket =>
  match env.event.s3TerraformKey with
  | none => ([], .error (tl "KeyError: s3TerraformKey"))
  | some s3_terraform_key =>
  let t0 := [Ev.download s3_bucket s3_terraform_key]
  match env.downloadResult with
  | .error e => (t0, .error e)
  | .ok content =>
  let terraform_content := clean_terraform_file content
  let _provider_cfg := create_provider_config terraform_content
  match run_terraform_command env.fs env.initOutcome [tl "init"] with
  | (t1, .error e) => (t0 ++ t1, .error e)
  | (t1, .ok (false, output)) =>
      (t0 ++ t1, .error (tl "Terraform init failed: " ++ output))
  | (t1, .ok (true, _)) =>
  match run_terraform_command env.fs env.planOutcome [tl "plan", tl "-out=tfplan"] with
  | (t2, .error e) => (t0 ++ t1 ++ t2, .error e)
  | (t2, .ok (false, output)) =>
      (t0 ++ t1 ++ t2, .error (tl "Terraform plan failed: " ++ output))
  | (t2, .ok (true, _)) =>
  let tUp := [Ev.uploadFile s3_bucket (tl "terraform_plans/" ++ request_id ++ tl "/tfplan")]
  match run_terraform_command env.fs env.applyOutcome
      [tl "apply", tl "-auto-approve", tl "tfplan"] with
  | (t3, .error e) => (t0 ++ t1 ++ t2 ++ tUp ++ t3, .error e)
  | (t3, .ok (apply_success, apply_output)) =>
  let tLog := [Ev.putObject s3_bucket
      (tl "terraform_output/" ++ request_id ++ tl "/apply_output.txt") apply_output]
  if apply_success = false then
    (t0 ++ t1 ++ t2 ++ tUp ++ t3 ++ tLog,
      .error (tl "Terraform apply failed: " ++ apply_output))
  else
  match run_terraform_command env.fs env.outputOutcome [tl "output", tl "-json"] with
  | (t4, .error e) => (t0 ++ t1 ++ t2 ++ tUp ++ t3 ++ tLog ++ t4, .error e)
  | (t4, .ok (output_success, tf_output)) =>
  let tOut := if output_success then
      [Ev.putObject s3_bucket (tl "terraform_output/" ++ request_id ++ tl "/outputs.json") tf_output]
    else []
  let tPub := [Ev.publish (tl "Terraform Deployment " ++ request_id ++ tl " Completed")
      (tl "\nTerraform deployment completed successfully for request " ++ request_id
        ++ tl ".\n\nOutputs have been stored at s3://" ++ s3_bucket
        ++ tl "/terraform_output/" ++ request_id
        ++ tl "/outputs.json\nApply logs have been stored at s3://" ++ s3_bucket
        ++ tl "/terraform_output/" ++ request_id ++ tl "/apply_output.txt\n                ")]
  (t0 ++ t1 ++ t2 ++ tUp ++ t3 ++ tLog ++ t4 ++ tOut ++ tPub,
    .ok ⟨request_id, s3_bucket, s3_terraform_key,
      tl "terraform_output/" ++ request_id ++ tl "/outputs.json",
      tl "terraform_output/" ++ request_id ++ tl "/apply_output.txt",
      tl "SUCCESS", tl "Successfully deployed infrastructure using Terraform"⟩)

/-- The Apply stage's `lambda_handler` including its `except` wrapper
(terraform_applier.py lines 362-372): on any error the terminal
notification is published, then the same error propagates. -/
def lambda_handler_apply (env : ApplyEnv) : List Ev × Except (List Char) ApplyResult :=
  match applier_body env with
  | (t, .ok r) => (t, .ok r)
  | (t, .error e) =>
      (t ++ [Ev.publish (tl "Error in Terraform Apply")
        (tl "Failed to apply Terraform code for request "
          ++ env.event.requestId.getD (tl "unknown") ++ tl ": " ++ e)],
        .error e)

/-- The provider-block slice examined by `create_provider_config`:
`content.split('provider "aws"')[1].split('}')[0]`, the text between the
first provider header and the first closing brace after it. -/
def blockOf (content : List Char) : List Char :=
  (pySplit (tl "\x7d") ((pySplit providerHeader content).getD 1 [])).getD 0 []

/-- Concrete main source with one provider block lacking a region. -/
def contentW : List Char := tl "provider \"aws\" \x7b\n  ami = \"abc\"\n\x7d\n"

/-- Concrete main source whose provider block already has a region. -/
def contentR : List Char := tl "provider \"aws\" \x7b\n  region = \"us-west-2\"\n\x7d\n"

/-- Concrete Convert-stage environment whose Bedrock call fails. -/
def envC2counter : NlpEnv :=
  ⟨some (tl "make a bucket"), tl "req-123", tl "state-bucket", .error (tl "boom")⟩

/-- Concrete Convert-stage environment with a missing `input` field. -/
def envC2nlp : NlpEnv := ⟨none, tl "u1", tl "sb", .ok (tl "c")⟩

/-- Concrete Validate-stage environment whose download fails. -/
def envC2val : ValidatorEnv :=
  ⟨⟨some (tl "r2"), some (tl "b2"), some (tl "k2")⟩, .error (tl "nosuchkey")⟩

/-- Concrete Apply-stage environment with a missing `requestId` field. -/
def envC2app : ApplyEnv :=
  ⟨⟨none, some (tl "b"), some (tl "k")⟩, .ok [], ⟨true, []⟩,
    .completed 0 [] [], .completed 0 [] [], .completed 0 [] [], .completed 0 [] []⟩

/-- Concrete Validate-stage environment whose downloaded content fails the
syntax check. -/
def envC7 : ValidatorEnv :=
  ⟨⟨some (tl "r3"), some (tl "b3"), some (tl "k3")⟩, .ok (tl "x")⟩

/-- Concrete Validate-stage environment whose downloaded content passes the
syntax check. -/
def envC9 : ValidatorEnv :=
  ⟨⟨some (tl "r4"), some (tl "b4"), some (tl "k4")⟩,
    .ok (tl "provider \"aws\" \x7b\x7d")⟩

/-- Concrete filesystem with the binary at the install location. -/
def fsC3 : TfFs := ⟨true, []⟩

/-- Concrete Apply-stage environment in which the binary is nowhere. -/
def envC5 : ApplyEnv :=
  ⟨⟨some (tl "r5"), some (tl "b5"), some (tl "k5")⟩, .ok (tl "x"),
    ⟨false, [(tl "/opt/python", [tl "readme.txt"])]⟩,
    .completed 0 [] [], .completed 0 [] [], .completed 0 [] [], .completed 0 [] []⟩

/-- Concrete filesystem whose second walk entry holds the binary. -/
def fsC5 : TfFs := ⟨false, [(tl "/opt/a", []), (tl "/opt/b", [tl "terraform"])]⟩

/-- Concrete Apply-stage environment: init, plan and apply succeed and the
`output` subcommand exits nonzero. -/
def envC6 : ApplyEnv :=
  ⟨⟨some (tl "r6"), some (tl "b6"), some (tl "k6")⟩, .ok (tl "x"), ⟨true, []⟩,
    .completed 0 (tl "i") [], .completed 0 (tl "p") [], .completed 0 (tl "a") [],
    .completed 1 [] (tl "no outputs")⟩

/-- Concrete Apply-stage environment: init, plan and apply succeed and the
`output` subcommand times out. -/
def envC10 : ApplyEnv :=
  ⟨⟨some (tl "r7"), some (tl "b7"), some (tl "k7")⟩, .ok (tl "y"), ⟨true, []⟩,
    .completed 0 (tl "i2") [], .completed 0 (tl "p2") [], .completed 0 (tl "a2") [],
    .timedOut⟩

/-- Concrete Apply-stage environment: init and plan succeed, apply fails. -/
def envC1 : ApplyEnv :=
  ⟨⟨some (tl "r8"), some (tl "b8"), some (tl "k8")⟩, .ok (tl "z"), ⟨true, []⟩,
    .completed 0 (tl "i3") [], .completed 0 (tl "p3") [],
    .completed 1 [] (tl "apply blew up"), .completed 0 (tl "o3") []⟩

theorem getLast?_filter_range (n : Nat) (p : Nat → Bool) (m : Nat) (hm : m < n)
    (hp : p m = true) (hup : ∀ j, m < j → j < n → p j = false) :
    ((List.range n).filter p).getLast? = some m := by
  induction n with
  | zero => omega
  | succ k ih =>
      rw [List.range_succ k, List.filter_append]
      by_cases hmk : m = k
      · subst hmk
        have h1 : List.filter p [m] = [m] := by simp [hp]
        rw [h1, List.getLast?_concat]
      · have hk : p k = false := hup k (by omega) (by omega)
        have h1 : List.filter p [k] = [] := by simp [hk]
        rw [h1, List.append_nil]
        exact ih (by omega) (fun j hj hjk => hup j hj (by omega))

theorem dropWhile_eq_self_head (p : Char → Bool) (c : Char) (cs : List Char)
    (h : (c :: cs).dropWhile p = c :: cs) : p c = false := by
  by_cases hc : p c = true
  · rw [List.dropWhile_cons, if_pos hc] at h
    have := congrArg List.length h
    have hsuf : cs.dropWhile p <:+ cs := List.dropWhile_suffix p
    have hle := hsuf.length_le
    simp at this
    omega
  · exact eq_false_of_ne_true hc

theorem pyStrip_append_newline (code : List Char)
    (h1 : pyLstrip code = code) (h2 : pyRstrip code = code) :
    pyStrip (code ++ ['\n']) = code := by
  cases code with
  | nil => decide
  | cons c cs =>
      have hc : pyIsSpace c = false := dropWhile_eq_self_head pyIsSpace c cs h1
      have hl : pyLstrip ((c :: cs) ++ ['\n']) = (c :: cs) ++ ['\n'] := by
        simp only [pyLstrip, List.cons_append, List.dropWhile_cons, hc]
        simp
      have hrev : ((c :: cs) ++ ['\n']).reverse = '\n' :: (c :: cs).reverse := by
        simp
      have hr2 : (c :: cs).reverse.dropWhile pyIsSpace = (c :: cs).reverse := by
        have := congrArg List.reverse h2
        simpa [pyRstrip] using this
      unfold pyStrip
      rw [hl]
      unfold pyRstrip
      rw [hrev, List.dropWhile_cons]
      have : pyIsSpace '\n' = true := by decide
      rw [if_pos this, hr2, List.reverse_reverse]

theorem pyRFind_fenced (code : List Char) :
    pyRFind fence (fence ++ '\n' :: code ++ '\n' :: fence) = some (code.length + 5) := by
  unfold pyRFind matchPositions
  have hlen : (fence ++ '\n' :: code ++ '\n' :: fence).length = code.length + 8 := by
    simp [fence, tl]
  rw [hlen]
  apply getLast?_filter_range (code.length + 9) _ (code.length + 5) (by omega)
  · have hsplit : fence ++ '\n' :: code ++ '\n' :: fence
        = (fence ++ '\n' :: code ++ ['\n']) ++ fence := by
      simp
    have hplen : (fence ++ '\n' :: code ++ ['\n']).length = code.length + 5 := by
      simp [fence, tl]
    rw [hsplit]
    have hdrop : ((fence ++ '\n' :: code ++ ['\n']) ++ fence).drop (code.length + 5) = fence := by
      rw [← hplen]
      exact List.drop_left _ _
    rw [hdrop]
    simp
  · intro j hj hjn
    apply decide_eq_false
    intro hpre
    have hfl : fence.length = 3 := by decide
    have h1 := hpre.length_le
    rw [List.length_drop, hlen, hfl] at h1
    omega

/-- C8: the sanitizer is the identity on inputs that do not begin with the
fence delimiter; for `fence ++ "\n" ++ code ++ "\n" ++ fence` with `code`
free of leading/trailing whitespace it yields exactly `code`; and when the
opening fence has no trailing delimiter occurring after the first line
break, it keeps (the whitespace-stripped remainder of) everything after
the opening line.  The transform is a total function by construction. -/
theorem clean_terraform_of_fencing :
    (∀ content : List Char, ¬ (fence <+: content) → clean_terraform_file content = content)
    ∧ (∀ code : List Char, pyLstrip code = code → pyRstrip code = code →
        clean_terraform_file (fence ++ '\n' :: code ++ '\n' :: fence) = code)
    ∧ (∀ content first_newline, fence <+: content →
        pyFindIdx (fun c => c = '\n') content = some first_newline →
        0 < first_newline →
        (∀ k ∈ matchPositions fence content, k ≤ first_newline) →
        clean_terraform_file content = pyStrip (content.drop (first_newline + 1))) := by
  refine ⟨?_, ?_, ?_⟩
  · intro content h
    unfold clean_terraform_file
    rw [if_neg h]
  · intro code h1 h2
    have hpre : fence <+: fence ++ '\n' :: code ++ '\n' :: fence :=
      List.prefix_append _ _
    have hfind : pyFindIdx (fun c => c = '\n') (fence ++ '\n' :: code ++ '\n' :: fence)
        = some 3 := by
      show pyFindIdx (fun c => c = '\n')
        ('`' :: '`' :: '`' :: '\n' :: (code ++ '\n' :: fence)) = some 3
      simp [pyFindIdx]
    unfold clean_terraform_file
    rw [if_pos hpre, hfind]
    dsimp only
    rw [if_pos (by omega : (0:Nat) < 3)]
    rw [pyRFind_fenced code]
    dsimp only
    rw [if_pos (by omega : 3 < code.length + 5)]
    have hdrop : (fence ++ '\n' :: code ++ '\n' :: fence).drop 4 = code ++ '\n' :: fence := by
      have hsplit : fence ++ '\n' :: code ++ '\n' :: fence
          = (fence ++ ['\n']) ++ (code ++ '\n' :: fence) := by simp
      have hplen : (fence ++ ['\n']).length = 4 := by decide
      rw [hsplit, ← hplen]
      exact List.drop_left _ _
    rw [hdrop]
    have htake : (code ++ '\n' :: fence).take (code.length + 5 - 4) = code ++ ['\n'] := by
      have h5 : code.length + 5 - 4 = code.length + 1 := by omega
      rw [h5]
      have : '\n' :: fence = ['\n'] ++ fence := rfl
      rw [this, ← List.append_assoc]
      have hlen2 : (code ++ ['\n']).length = code.length + 1 := by simp
      rw [← hlen2]
      have h0 : ((code ++ ['\n']) ++ fence).take ((code ++ ['\n']).length + 0)
          = (code ++ ['\n']) ++ fence.take 0 := List.take_append 0
      simpa using h0
    rw [htake]
    exact pyStrip_append_newline code h1 h2
  · intro content first_newline hpre hfind hpos hup
    unfold clean_terraform_file
    rw [if_pos hpre, hfind]
    dsimp only
    rw [if_pos hpos]
    cases hrf : pyRFind fence content with
    | none => rfl
    | some k =>
        have hk : k ∈ matchPositions fence content :=
          List.mem_of_getLast?_eq_some hrf
        have := hup k hk
        dsimp only
        rw [if_neg (by omega)]

theorem infix_of_append_right (a b : List Char) : b <:+: a ++ b :=
  ⟨a, [], by simp⟩

theorem infix_of_parts (a b c : List Char) : b <:+: a ++ b ++ c :=
  ⟨a, c, rfl⟩

theorem apply_keys_distinct (rid : List Char) :
    tl "terraform_output/" ++ rid ++ tl "/apply_output.txt"
      ≠ tl "terraform_output/" ++ rid ++ tl "/outputs.json" := by
  intro h
  rw [List.append_assoc, List.append_assoc] at h
  have h1 := List.append_cancel_left h
  have h2 := List.append_cancel_left h1
  exact absurd h2 (by decide)

/-- C7: balanced braces, an even count of unescaped quotes and a provider
keyword yield an empty diagnostic list; the input `a { b` yields a
brace-imbalance diagnostic; a content without the provider keyword yields
the missing-provider diagnostic; and a non-empty diagnostic list makes the
Validate stage fail with the diagnostics embedded in the raised message. -/
theorem syntax_checker_diagnostics :
    (∀ content : List Char,
      content.count '\x7b' = content.count '\x7d' →
      countUnescapedQuotes none content % 2 = 0 →
      tl "provider" <:+: content →
      basic_syntax_check content = [])
    ∧ tl "Unbalanced braces: 1 opening vs 0 closing" ∈ basic_syntax_check (tl "a \x7b b")
    ∧ (∀ content : List Char, ¬ (tl "provider" <:+: content) →
        tl "No provider block found" ∈ basic_syntax_check content)
    ∧ (∀ (env : ValidatorEnv) (rid bucket key content : List Char),
        env.event.requestId = some rid →
        env.event.s3Bucket = some bucket →
        env.event.s3Key = some key →
        env.downloadResult = .ok content →
        basic_syntax_check (clean_terraform_file content) ≠ [] →
        (lambda_handler_validator env).2 = .error (tl "Terraform syntax validation failed:\n"
          ++ List.intercalate (tl "\n") (basic_syntax_check (clean_terraform_file content)))) := by
  refine ⟨?_, ?_, ?_, ?_⟩
  · intro content h1 h2 h3
    simp [basic_syntax_check, h1, h2, h3]
  · decide
  · intro content h
    simp [basic_syntax_check, h]
  · intro env rid bucket key content h1 h2 h3 h4 h5
    simp [lambda_handler_validator, validator_body, h1, h2, h3, h4, h5]

/-- Witness for the C7 theorem at concrete inputs. -/
theorem syntax_checker_diagnostics_witness :
    basic_syntax_check (tl "provider \x7b\x7d") = []
    ∧ (lambda_handler_validator envC7).2 = .error (tl "Terraform syntax validation failed:\n"
        ++ List.intercalate (tl "\n") (basic_syntax_check (clean_terraform_file (tl "x")))) :=
  ⟨syntax_checker_diagnostics.1 (tl "provider \x7b\x7d") (by decide) (by decide) (by decide),
    syntax_checker_diagnostics.2.2.2 envC7 (tl "r3") (tl "b3") (tl "k3") (tl "x")
      rfl rfl rfl rfl (by decide)⟩

/-- C9: every validation-result artifact the Validate stage ever stores is
the PASSED / empty-errors / SUCCESS record, and it is stored only in runs
whose cleaned content produced no diagnostics; the FAILED variants are
unreachable. -/
theorem validation_artifact_always_passed :
    ∀ (env : ValidatorEnv) (b k body : List Char),
      Ev.putObject b k body ∈ (lambda_handler_validator env).1 →
      body = renderValidationResult ⟨tl "PASSED", [], tl "SUCCESS"⟩
      ∧ (∃ content, env.downloadResult = .ok content
          ∧ basic_syntax_check (clean_terraform_file content) = [])
      ∧ (∃ rid, env.event.requestId = some rid
          ∧ k = tl "terraform_validation/" ++ rid ++ tl "/validation_result.json") := by
  intro env b k body hmem
  rcases env with ⟨⟨rid?, bucket?, key?⟩, dl⟩
  cases rid? with
  | none => simp [lambda_handler_validator, validator_body] at hmem
  | some rid =>
  cases bucket? with
  | none => simp [lambda_handler_validator, validator_body] at hmem
  | some bucket =>
  cases key? with
  | none => simp [lambda_handler_validator, validator_body] at hmem
  | some key =>
  cases dl with
  | error e => simp [lambda_handler_validator, validator_body] at hmem
  | ok content =>
      by_cases hse : basic_syntax_check (clean_terraform_file content) = []
      · simp [lambda_handler_validator, validator_body, hse] at hmem
        refine ⟨hmem.2.2, ⟨content, rfl, hse⟩, ⟨rid, rfl, ?_⟩⟩
        rw [List.append_assoc]
        exact hmem.2.1
      · simp [lambda_handler_validator, validator_body, hse] at hmem

/-- Witness for the C9 theorem at a concrete passing environment. -/
theorem validation_artifact_always_passed_witness :
    renderValidationResult ⟨tl "PASSED", [], tl "SUCCESS"⟩
        = renderValidationResult ⟨tl "PASSED", [], tl "SUCCESS"⟩
    ∧ (∃ content, envC9.downloadResult = .ok content
        ∧ basic_syntax_check (clean_terraform_file content) = [])
    ∧ (∃ rid, envC9.event.requestId = some rid
        ∧ tl "terraform_validation/r4/validation_result.json"
            = tl "terraform_validation/" ++ rid ++ tl "/validation_result.json") := by
  have h := validation_artifact_always_passed envC9 (tl "b4")
    (tl "terraform_validation/r4/validation_result.json")
    (renderValidationResult ⟨tl "PASSED", [], tl "SUCCESS"⟩) (by decide)
  exact ⟨rfl, h.2.1, h.2.2⟩

theorem find?_first {α : Type} (p : α → Bool) (post : List α) (x : α) (hx : p x = true) :
    ∀ pre : List α, (∀ y ∈ pre, p y = false) → (pre ++ x :: post).find? p = some x := by
  intro pre
  induction pre with
  | nil =>
      intro _
      simp [List.find?_cons, hx]
  | cons a l ih =>
      intro hpre
      have ha : p a = false := hpre a (List.mem_cons_self a l)
      rw [List.cons_append, List.find?_cons_of_neg _ (by simp [ha])]
      exact ih (fun y hy => hpre y (List.mem_cons_of_mem a hy))

/-- C2 counterexample: the Convert stage's failing invocation on
`envC2counter` propagates the error, yet no published notification
contains the run's request identifier `req-123` — so the claim that every
stage's terminal notification contains the request identifier is false. -/
theorem convert_notification_lacks_request_id :
    (lambda_handler_nlp envC2counter).2 = .error (tl "boom")
    ∧ ((lambda_handler_nlp envC2counter).1.all (fun e =>
        match e with
        | Ev.publish _ m => decide (¬ (tl "req-123" <:+: m))
        | _ => true)) = true
    ∧ ((lambda_handler_nlp envC2counter).1.any (fun e =>
        match e with
        | Ev.publish _ _ => true
        | _ => false)) = true := by
  refine ⟨rfl, by decide, by decide⟩

/-- C2 (amended): whenever a stage's body raises, the handler first
publishes a terminal notification — whose subject names the stage and
whose message contains the error detail, and, for the Validate and Apply
stages (but not Convert), the request identifier or `unknown` — and then
propagates the very same error as the failed invocation's result. -/
theorem stage_failure_publishes_then_propagates :
    (∀ (env : NlpEnv) (e : List Char), (nlp_body env).2 = .error e →
      ∃ m, (lambda_handler_nlp env).1
          = (nlp_body env).1 ++ [Ev.publish (tl "Error in NLP to Terraform Conversion") m]
        ∧ e <:+: m
        ∧ (lambda_handler_nlp env).2 = .error e)
    ∧ (∀ (env : ValidatorEnv) (e : List Char), (validator_body env).2 = .error e →
      ∃ m, (lambda_handler_validator env).1
          = (validator_body env).1 ++ [Ev.publish (tl "Error in Terraform Validation") m]
        ∧ e <:+: m ∧ env.event.requestId.getD (tl "unknown") <:+: m
        ∧ (lambda_handler_validator env).2 = .error e)
    ∧ (∀ (env : ApplyEnv) (e : List Char), (applier_body env).2 = .error e →
      ∃ m, (lambda_handler_apply env).1
          = (applier_body env).1 ++ [Ev.publish (tl "Error in Terraform Apply") m]
        ∧ e <:+: m ∧ env.event.requestId.getD (tl "unknown") <:+: m
        ∧ (lambda_handler_apply env).2 = .error e) := by
  refine ⟨?_, ?_, ?_⟩
  · intro env e h
    unfold lambda_handler_nlp
    rcases hb : nlp_body env with ⟨t, r⟩
    rw [hb] at h
    simp at h
    subst h
    refine ⟨tl "Failed to process request: " ++ e, rfl, ?_, rfl⟩
    exact infix_of_append_right _ _
  · intro env e h
    unfold lambda_handler_validator
    rcases hb : validator_body env with ⟨t, r⟩
    rw [hb] at h
    simp at h
    subst h
    refine ⟨tl "Failed to validate Terraform code for request "
        ++ env.event.requestId.getD (tl "unknown") ++ tl ": " ++ e, rfl, ?_, ?_, rfl⟩
    · exact infix_of_append_right _ _
    · have := infix_of_parts (tl "Failed to validate Terraform code for request ")
        (env.event.requestId.getD (tl "unknown")) (tl ": " ++ e)
      rcases this with ⟨s, u, hsu⟩
      exact ⟨s, u, by rw [hsu]; simp⟩
  · intro env e h
    unfold lambda_handler_apply
    rcases hb : applier_body env with ⟨t, r⟩
    rw [hb] at h
    simp at h
    subst h
    refine ⟨tl "Failed to apply Terraform code for request "
        ++ env.event.requestId.getD (tl "unknown") ++ tl ": " ++ e, rfl, ?_, ?_, rfl⟩
    · exact infix_of_append_right _ _
    · have := infix_of_parts (tl "Failed to apply Terraform code for request ")
        (env.event.requestId.getD (tl "unknown")) (tl ": " ++ e)
      rcases this with ⟨s, u, hsu⟩
      exact ⟨s, u, by rw [hsu]; simp⟩

/-- Witness for the amended C2 theorem: one concrete failing run of each
stage. -/
theorem stage_failure_publishes_then_propagates_witness :
    (∃ m, (lambda_handler_nlp envC2nlp).1
        = (nlp_body envC2nlp).1 ++ [Ev.publish (tl "Error in NLP to Terraform Conversion") m]
      ∧ tl "KeyError: input" <:+: m
      ∧ (lambda_handler_nlp envC2nlp).2 = .error (tl "KeyError: input"))
    ∧ (∃ m, (lambda_handler_validator envC2val).1
        = (validator_body envC2val).1 ++ [Ev.publish (tl "Error in Terraform Validation") m]
      ∧ tl "nosuchkey" <:+: m ∧ envC2val.event.requestId.getD (tl "unknown") <:+: m
      ∧ (lambda_handler_validator envC2val).2 = .error (tl "nosuchkey"))
    ∧ (∃ m, (lambda_handler_apply envC2app).1
        = (applier_body envC2app).1 ++ [Ev.publish (tl "Error in Terraform Apply") m]
      ∧ tl "KeyError: requestId" <:+: m ∧ envC2app.event.requestId.getD (tl "unknown") <:+: m
      ∧ (lambda_handler_apply envC2app).2 = .error (tl "KeyError: requestId")) :=
  ⟨stage_failure_publishes_then_propagates.1 envC2nlp (tl "KeyError: input") rfl,
    stage_failure_publishes_then_propagates.2.1 envC2val (tl "nosuchkey") rfl,
    stage_failure_publishes_then_propagates.2.2 envC2app (tl "KeyError: requestId") rfl⟩

/-- C3: the subprocess ceiling is 13 minutes (780 seconds), and an
invocation whose subprocess exceeds it is forcibly killed and returns a
failure whose message indicates a timeout instead of hanging or raising a
generic execution error. -/
theorem terraform_timeout_killed_and_reported :
    TF_TIMEOUT_SECONDS = 13 * 60
    ∧ ∀ (fs : TfFs) (command : List (List Char)) (bin : List Char),
        resolveTerraformBin fs = .ok bin →
        (run_terraform_command fs .timedOut command).1
          = [Ev.copyBin bin (tl "/tmp/terraform"),
              Ev.spawn (tl "/tmp/terraform") command, Ev.kill]
        ∧ (run_terraform_command fs .timedOut command).2
          = .ok (false, tl "Command timed out after 4 minutes")
        ∧ tl "timed out" <:+: tl "Command timed out after 4 minutes" := by
  refine ⟨rfl, ?_⟩
  intro fs command bin h
  unfold run_terraform_command
  rw [h]
  exact ⟨rfl, rfl, by decide⟩

/-- Witness for the C3 theorem at a concrete filesystem and command. -/
theorem terraform_timeout_killed_and_reported_witness :
    (run_terraform_command fsC3 .timedOut [tl "plan"]).1
      = [Ev.copyBin (tl "/opt/bin/terraform") (tl "/tmp/terraform"),
          Ev.spawn (tl "/tmp/terraform") [tl "plan"], Ev.kill]
    ∧ (run_terraform_command fsC3 .timedOut [tl "plan"]).2
      = .ok (false, tl "Command timed out after 4 minutes")
    ∧ tl "timed out" <:+: tl "Command timed out after 4 minutes" := by
  have h := terraform_timeout_killed_and_reported.2 fsC3 [tl "plan"]
    (tl "/opt/bin/terraform") rfl
  exact h

/-- C5: with the binary absent from the install location, if no walk entry
lists a `terraform` file the Apply stage fails with the binary-not-found
error before any subprocess is spawned; if some entry does, the first such
entry's `root/terraform` path is the binary staged for execution. -/
theorem binary_resolution_fails_fast_or_uses_first_match :
    (∀ (env : ApplyEnv) (rid bucket key content : List Char),
      env.event.requestId = some rid → env.event.s3Bucket = some bucket →
      env.event.s3TerraformKey = some key → env.downloadResult = .ok content →
      env.fs.binAtLayer = false →
      (∀ entry ∈ env.fs.walk, ¬ (tl "terraform" ∈ entry.2)) →
      (lambda_handler_apply env).2
          = .error (tl "Terraform binary not found in Lambda environment")
      ∧ ∀ b args, Ev.spawn b args ∉ (lambda_handler_apply env).1)
    ∧ (∀ (fs : TfFs) (oc : ExecOutcome) (command : List (List Char))
        (pre post : List (List Char × List (List Char))) (root : List Char)
        (files : List (List Char)),
        fs.binAtLayer = false →
        fs.walk = pre ++ (root, files) :: post →
        (∀ entry ∈ pre, ¬ (tl "terraform" ∈ entry.2)) →
        tl "terraform" ∈ files →
        Ev.copyBin (pathJoin root (tl "terraform")) (tl "/tmp/terraform")
          ∈ (run_terraform_command fs oc command).1) := by
  constructor
  · intro env rid bucket key content h1 h2 h3 h4 h5 h6
    have hfind : env.fs.walk.find? (fun e => decide (tl "terraform" ∈ e.2)) = none := by
      rw [List.find?_eq_none]
      intro x hx
      simpa using h6 x hx
    have hres : resolveTerraformBin env.fs
        = .error (tl "Terraform binary not found in Lambda environment") := by
      unfold resolveTerraformBin
      rw [if_neg (by simp [h5]), hfind]
    constructor
    · simp [lambda_handler_apply, applier_body, run_terraform_command, hres, h1, h2, h3, h4]
    · intro b args
      simp [lambda_handler_apply, applier_body, run_terraform_command, hres, h1, h2, h3, h4]
  · intro fs oc command pre post root files hlayer hwalk hpre hfiles
    have hfind : fs.walk.find? (fun e => decide (tl "terraform" ∈ e.2))
        = some (root, files) := by
      rw [hwalk]
      exact find?_first _ post (root, files) (by simpa using hfiles) pre
        (fun y hy => by simpa using hpre y hy)
    have hres : resolveTerraformBin fs = .ok (pathJoin root (tl "terraform")) := by
      unfold resolveTerraformBin
      rw [if_neg (by simp [hlayer]), hfind]
    unfold run_terraform_command
    rw [hres]
    cases oc <;> simp

/-- Witness for the C5 theorem at concrete environments. -/
theorem binary_resolution_fails_fast_or_uses_first_match_witness :
    ((lambda_handler_apply envC5).2
        = .error (tl "Terraform binary not found in Lambda environment")
      ∧ ∀ b args, Ev.spawn b args ∉ (lambda_handler_apply envC5).1)
    ∧ Ev.copyBin (pathJoin (tl "/opt/b") (tl "terraform")) (tl "/tmp/terraform")
        ∈ (run_terraform_command fsC5 (.completed 0 [] []) [tl "init"]).1 :=
  ⟨binary_resolution_fails_fast_or_uses_first_match.1 envC5 (tl "r5") (tl "b5") (tl "k5")
      (tl "x") rfl rfl rfl rfl rfl (by decide),
    binary_resolution_fails_fast_or_uses_first_match.2 fsC5 (.completed 0 [] []) [tl "init"]
      [(tl "/opt/a", [])] [] (tl "/opt/b") [tl "terraform"] rfl rfl (by decide) (by decide)⟩

/-- C10: when `output` fails after a successful apply, the returned record
still points `s3OutputsKey` at `terraform_output/{id}/outputs.json` even
though no object was stored under that key during the run. -/
theorem outputs_key_returned_without_artifact :
    ∀ (env : ApplyEnv) (rid bucket key content bin o1 e1 o2 e2 o3 e3 : List Char),
      env.event.requestId = some rid → env.event.s3Bucket = some bucket →
      env.event.s3TerraformKey = some key → env.downloadResult = .ok content →
      resolveTerraformBin env.fs = .ok bin →
      env.initOutcome = .completed 0 o1 e1 →
      env.planOutcome = .completed 0 o2 e2 →
      env.applyOutcome = .completed 0 o3 e3 →
      (∀ o e, env.outputOutcome ≠ .completed 0 o e) →
      ∃ r : ApplyResult, (lambda_handler_apply env).2 = .ok r
        ∧ r.s3OutputsKey = tl "terraform_output/" ++ rid ++ tl "/outputs.json"
        ∧ ∀ b body, Ev.putObject b (tl "terraform_output/" ++ rid ++ tl "/outputs.json") body
            ∉ (lambda_handler_apply env).1 := by
  intro env rid bucket key content bin o1 e1 o2 e2 o3 e3 h1 h2 h3 h4 h5 h6 h7 h8 h9
  refine ⟨⟨rid, bucket, key,
      tl "terraform_output/" ++ rid ++ tl "/outputs.json",
      tl "terraform_output/" ++ rid ++ tl "/apply_output.txt",
      tl "SUCCESS", tl "Successfully deployed infrastructure using Terraform"⟩,
    ?_, rfl, ?_⟩
  · cases hoc : env.outputOutcome with
    | completed rc o e =>
        by_cases hrc : rc = 0
        · subst hrc
          exact absurd hoc (h9 o e)
        · simp [lambda_handler_apply, applier_body, run_terraform_command,
            h1, h2, h3, h4, h5, h6, h7, h8, hoc, hrc]
    | timedOut =>
        simp [lambda_handler_apply, applier_body, run_terraform_command,
          h1, h2, h3, h4, h5, h6, h7, h8, hoc]
    | execError m =>
        simp [lambda_handler_apply, applier_body, run_terraform_command,
          h1, h2, h3, h4, h5, h6, h7, h8, hoc]
  · intro b body hmem
    have hne : tl "terraform_output/" ++ rid ++ tl "/apply_output.txt"
        ≠ tl "terraform_output/" ++ rid ++ tl "/outputs.json" := apply_keys_distinct rid
    cases hoc : env.outputOutcome with
    | completed rc o e =>
        by_cases hrc : rc = 0
        · subst hrc
          exact absurd hoc (h9 o e)
        · rw [List.append_assoc, List.append_assoc] at hne
          simp [lambda_handler_apply, applier_body, run_terraform_command,
            h1, h2, h3, h4, h5, h6, h7, h8, hoc, hrc] at hmem
          exact hne (by rw [hmem.2.1])
    | timedOut =>
        rw [List.append_assoc, List.append_assoc] at hne
        simp [lambda_handler_apply, applier_body, run_terraform_command,
          h1, h2, h3, h4, h5, h6, h7, h8, hoc] at hmem
        exact hne (by rw [hmem.2.1])
    | execError m =>
        rw [List.append_assoc, List.append_assoc] at hne
        simp [lambda_handler_apply, applier_body, run_terraform_command,
          h1, h2, h3, h4, h5, h6, h7, h8, hoc] at hmem
        exact hne (by rw [hmem.2.1])

/-- Witness for the C10 theorem at a concrete environment. -/
theorem outputs_key_returned_without_artifact_witness :
    ∃ r : ApplyResult, (lambda_handler_apply envC10).2 = .ok r
      ∧ r.s3OutputsKey = tl "terraform_output/" ++ tl "r7" ++ tl "/outputs.json"
      ∧ ∀ b body, Ev.putObject b (tl "terraform_output/" ++ tl "r7" ++ tl "/outputs.json") body
          ∉ (lambda_handler_apply envC10).1 :=
  outputs_key_returned_without_artifact envC10 (tl "r7") (tl "b7") (tl "k7") (tl "y")
    (tl "/opt/bin/terraform") (tl "i2") [] (tl "p2") [] (tl "a2") []
    rfl rfl rfl rfl rfl rfl rfl rfl (fun o e h => by cases h)

/-- C1: once plan succeeds the plan artifact is uploaded to
`terraform_plans/{id}/tfplan`, before the apply subprocess runs; every run
that reaches apply stores the captured apply output at
`terraform_output/{id}/apply_output.txt`; and when apply fails, that log
is stored before the failure notification is published and the stage
propagates the apply failure. -/
theorem plan_uploaded_and_apply_log_persisted :
    ∀ (env : ApplyEnv) (rid bucket key content bin o1 e1 o2 e2 : List Char),
      env.event.requestId = some rid → env.event.s3Bucket = some bucket →
      env.event.s3TerraformKey = some key → env.downloadResult = .ok content →
      resolveTerraformBin env.fs = .ok bin →
      env.initOutcome = .completed 0 o1 e1 →
      env.planOutcome = .completed 0 o2 e2 →
      (∃ t1 t2, (lambda_handler_apply env).1
          = t1 ++ Ev.uploadFile bucket (tl "terraform_plans/" ++ rid ++ tl "/tfplan") :: t2
        ∧ Ev.spawn (tl "/tmp/terraform") [tl "apply", tl "-auto-approve", tl "tfplan"] ∈ t2)
      ∧ (∃ out, Ev.putObject bucket (tl "terraform_output/" ++ rid ++ tl "/apply_output.txt") out
          ∈ (lambda_handler_apply env).1)
      ∧ ((∀ o e, env.applyOutcome ≠ .completed 0 o e) →
          ∃ out t3 t4, (lambda_handler_apply env).2
              = .error (tl "Terraform apply failed: " ++ out)
            ∧ (lambda_handler_apply env).1 = t3
                ++ Ev.putObject bucket (tl "terraform_output/" ++ rid ++ tl "/apply_output.txt") out
                :: t4
            ∧ Ev.publish (tl "Error in Terraform Apply")
                (tl "Failed to apply Terraform code for request " ++ rid ++ tl ": "
                  ++ (tl "Terraform apply failed: " ++ out)) ∈ t4) := by
  intro env rid bucket key content bin o1 e1 o2 e2 h1 h2 h3 h4 h5 h6 h7
  cases hoc3 : env.applyOutcome with
  | completed rc3 o3 e3 =>
      by_cases hrc3 : rc3 = 0
      · subst hrc3
        cases hoc4 : env.outputOutcome with
        | completed rc4 o4 e4 =>
            by_cases hrc4 : rc4 = 0
            · subst hrc4
              have htr : (lambda_handler_apply env).1
                  = [Ev.download bucket key,
                      Ev.copyBin bin (tl "/tmp/terraform"),
                      Ev.spawn (tl "/tmp/terraform") [tl "init"],
                      Ev.copyBin bin (tl "/tmp/terraform"),
                      Ev.spawn (tl "/tmp/terraform") [tl "plan", tl "-out=tfplan"]]
                    ++ Ev.uploadFile bucket (tl "terraform_plans/" ++ rid ++ tl "/tfplan")
                    :: [Ev.copyBin bin (tl "/tmp/terraform"),
                      Ev.spawn (tl "/tmp/terraform") [tl "apply", tl "-auto-approve", tl "tfplan"],
                      Ev.putObject bucket (tl "terraform_output/" ++ rid ++ tl "/apply_output.txt") o3,
                      Ev.copyBin bin (tl "/tmp/terraform"),
                      Ev.spawn (tl "/tmp/terraform") [tl "output", tl "-json"],
                      Ev.putObject bucket (tl "terraform_output/" ++ rid ++ tl "/outputs.json") o4,
                      Ev.publish (tl "Terraform Deployment " ++ rid ++ tl " Completed")
                        (tl "\nTerraform deployment completed successfully for request " ++ rid
                          ++ tl ".\n\nOutputs have been stored at s3://" ++ bucket
                          ++ tl "/terraform_output/" ++ rid
                          ++ tl "/outputs.json\nApply logs have been stored at s3://" ++ bucket
                          ++ tl "/terraform_output/" ++ rid ++ tl "/apply_output.txt\n                ")] := by
                simp [lambda_handler_apply, applier_body, run_terraform_command,
                  h1, h2, h3, h4, h5, h6, h7, hoc3, hoc4]
              refine ⟨⟨_, _, htr, by simp⟩, ⟨o3, by rw [htr]; simp⟩, ?_⟩
              intro hfail
              exact absurd rfl (hfail o3 e3)
            · have htr : (lambda_handler_apply env).1
                  = [Ev.download bucket key,
                      Ev.copyBin bin (tl "/tmp/terraform"),
                      Ev.spawn (tl "/tmp/terraform") [tl "init"],
                      Ev.copyBin bin (tl "/tmp/terraform"),
                      Ev.spawn (tl "/tmp/terraform") [tl "plan", tl "-out=tfplan"]]
                    ++ Ev.uploadFile bucket (tl "terraform_plans/" ++ rid ++ tl "/tfplan")
                    :: [Ev.copyBin bin (tl "/tmp/terraform"),
                      Ev.spawn (tl "/tmp/terraform") [tl "apply", tl "-auto-approve", tl "tfplan"],
                      Ev.putObject bucket (tl "terraform_output/" ++ rid ++ tl "/apply_output.txt") o3,
                      Ev.copyBin bin (tl "/tmp/terraform"),
                      Ev.spawn (tl "/tmp/terraform") [tl "output", tl "-json"],
                      Ev.publish (tl "Terraform Deployment " ++ rid ++ tl " Completed")
                        (tl "\nTerraform deployment completed successfully for request " ++ rid
                          ++ tl ".\n\nOutputs have been stored at s3://" ++ bucket
                          ++ tl "/terraform_output/" ++ rid
                          ++ tl "/outputs.json\nApply logs have been stored at s3://" ++ bucket
                          ++ tl "/terraform_output/" ++ rid ++ tl "/apply_output.txt\n                ")] := by
                simp [lambda_handler_apply, applier_body, run_terraform_command,
                  h1, h2, h3, h4, h5, h6, h7, hoc3, hoc4, hrc4]
              refine ⟨⟨_, _, htr, by simp⟩, ⟨o3, by rw [htr]; simp⟩, ?_⟩
              intro hfail
              exact absurd rfl (hfail o3 e3)
        | timedOut =>
            have htr : (lambda_handler_apply env).1
                = [Ev.download bucket key,
                    Ev.copyBin bin (tl "/tmp/terraform"),
                    Ev.spawn (tl "/tmp/terraform") [tl "init"],
                    Ev.copyBin bin (tl "/tmp/terraform"),
                    Ev.spawn (tl "/tmp/terraform") [tl "plan", tl "-out=tfplan"]]
                  ++ Ev.uploadFile bucket (tl "terraform_plans/" ++ rid ++ tl "/tfplan")
                  :: [Ev.copyBin bin (tl "/tmp/terraform"),
                    Ev.spawn (tl "/tmp/terraform") [tl "apply", tl "-auto-approve", tl "tfplan"],
                    Ev.putObject bucket (tl "terraform_output/" ++ rid ++ tl "/apply_output.txt") o3,
                    Ev.copyBin bin (tl "/tmp/terraform"),
                    Ev.spawn (tl "/tmp/terraform") [tl "output", tl "-json"],
                    Ev.kill,
                    Ev.publish (tl "Terraform Deployment " ++ rid ++ tl " Completed")
                      (tl "\nTerraform deployment completed successfully for request " ++ rid
                        ++ tl ".\n\nOutputs have been stored at s3://" ++ bucket
                        ++ tl "/terraform_output/" ++ rid
                        ++ tl "/outputs.json\nApply logs have been stored at s3://" ++ bucket
                        ++ tl "/terraform_output/" ++ rid ++ tl "/apply_output.txt\n                ")] := by
              simp [lambda_handler_apply, applier_body, run_terraform_command,
                h1, h2, h3, h4, h5, h6, h7, hoc3, hoc4]
            refine ⟨⟨_, _, htr, by simp⟩, ⟨o3, by rw [htr]; simp⟩, ?_⟩
            intro hfail
            exact absurd rfl (hfail o3 e3)
        | execError m4 =>
            have htr : (lambda_handler_apply env).1
                = [Ev.download bucket key,
                    Ev.copyBin bin (tl "/tmp/terraform"),
                    Ev.spawn (tl "/tmp/terraform") [tl "init"],
                    Ev.copyBin bin (tl "/tmp/terraform"),
                    Ev.spawn (tl "/tmp/terraform") [tl "plan", tl "-out=tfplan"]]
                  ++ Ev.uploadFile bucket (tl "terraform_plans/" ++ rid ++ tl "/tfplan")
                  :: [Ev.copyBin bin (tl "/tmp/terraform"),
                    Ev.spawn (tl "/tmp/terraform") [tl "apply", tl "-auto-approve", tl "tfplan"],
                    Ev.putObject bucket (tl "terraform_output/" ++ rid ++ tl "/apply_output.txt") o3,
                    Ev.copyBin bin (tl "/tmp/terraform"),
                    Ev.spawn (tl "/tmp/terraform") [tl "output", tl "-json"],
                    Ev.publish (tl "Terraform Deployment " ++ rid ++ tl " Completed")
                      (tl "\nTerraform deployment completed successfully for request " ++ rid
                        ++ tl ".\n\nOutputs have been stored at s3://" ++ bucket
                        ++ tl "/terraform_output/" ++ rid
                        ++ tl "/outputs.json\nApply logs have been stored at s3://" ++ bucket
                        ++ tl "/terraform_output/" ++ rid ++ tl "/apply_output.txt\n                ")] := by
              simp [lambda_handler_apply, applier_body, run_terraform_command,
                h1, h2, h3, h4, h5, h6, h7, hoc3, hoc4]
            refine ⟨⟨_, _, htr, by simp⟩, ⟨o3, by rw [htr]; simp⟩, ?_⟩
            intro hfail
            exact absurd rfl (hfail o3 e3)
      · have htr : (lambda_handler_apply env).1
            = [Ev.download bucket key,
                Ev.copyBin bin (tl "/tmp/terraform"),
                Ev.spawn (tl "/tmp/terraform") [tl "init"],
                Ev.copyBin bin (tl "/tmp/terraform"),
                Ev.spawn (tl "/tmp/terraform") [tl "plan", tl "-out=tfplan"]]
              ++ Ev.uploadFile bucket (tl "terraform_plans/" ++ rid ++ tl "/tfplan")
              :: [Ev.copyBin bin (tl "/tmp/terraform"),
                Ev.spawn (tl "/tmp/terraform") [tl "apply", tl "-auto-approve", tl "tfplan"],
                Ev.putObject bucket (tl "terraform_output/" ++ rid ++ tl "/apply_output.txt") e3,
                Ev.publish (tl "Error in Terraform Apply")
                  (tl "Failed to apply Terraform code for request " ++ rid ++ tl ": "
                    ++ (tl "Terraform apply failed: " ++ e3))] := by
          simp [lambda_handler_apply, applier_body, run_terraform_command,
            h1, h2, h3, h4, h5, h6, h7, hoc3, hrc3]
        have hres : (lambda_handler_apply env).2
            = .error (tl "Terraform apply failed: " ++ e3) := by
          simp [lambda_handler_apply, applier_body, run_terraform_command,
            h1, h2, h3, h4, h5, h6, h7, hoc3, hrc3]
        refine ⟨⟨_, _, htr, by simp⟩, ⟨e3, by rw [htr]; simp⟩, ?_⟩
        intro _
        refine ⟨e3,
          [Ev.download bucket key,
            Ev.copyBin bin (tl "/tmp/terraform"),
            Ev.spawn (tl "/tmp/terraform") [tl "init"],
            Ev.copyBin bin (tl "/tmp/terraform"),
            Ev.spawn (tl "/tmp/terraform") [tl "plan", tl "-out=tfplan"],
            Ev.uploadFile bucket (tl "terraform_plans/" ++ rid ++ tl "/tfplan"),
            Ev.copyBin bin (tl "/tmp/terraform"),
            Ev.spawn (tl "/tmp/terraform") [tl "apply", tl "-auto-approve", tl "tfplan"]],
          [Ev.publish (tl "Error in Terraform Apply")
            (tl "Failed to apply Terraform code for request " ++ rid ++ tl ": "
              ++ (tl "Terraform apply failed: " ++ e3))],
          hres, by rw [htr]; rfl, by simp⟩
  | timedOut =>
      have htr : (lambda_handler_apply env).1
          = [Ev.download bucket key,
              Ev.copyBin bin (tl "/tmp/terraform"),
              Ev.spawn (tl "/tmp/terraform") [tl "init"],
              Ev.copyBin bin (tl "/tmp/terraform"),
              Ev.spawn (tl "/tmp/terraform") [tl "plan", tl "-out=tfplan"]]
            ++ Ev.uploadFile bucket (tl "terraform_plans/" ++ rid ++ tl "/tfplan")
            :: [Ev.copyBin bin (tl "/tmp/terraform"),
              Ev.spawn (tl "/tmp/terraform") [tl "apply", tl "-auto-approve", tl "tfplan"],
              Ev.kill,
              Ev.putObject bucket (tl "terraform_output/" ++ rid ++ tl "/apply_output.txt")
                (tl "Command timed out after 4 minutes"),
              Ev.publish (tl "Error in Terraform Apply")
                (tl "Failed to apply Terraform code for request " ++ rid ++ tl ": "
                  ++ (tl "Terraform apply failed: " ++ tl "Command timed out after 4 minutes"))] := by
        simp [lambda_handler_apply, applier_body, run_terraform_command,
          h1, h2, h3, h4, h5, h6, h7, hoc3]
      have hres : (lambda_handler_apply env).2
          = .error (tl "Terraform apply failed: " ++ tl "Command timed out after 4 minutes") := by
        simp [lambda_handler_apply, applier_body, run_terraform_command,
          h1, h2, h3, h4, h5, h6, h7, hoc3]
      refine ⟨⟨_, _, htr, by simp⟩, ⟨tl "Command timed out after 4 minutes", by rw [htr]; simp⟩, ?_⟩
      intro _
      refine ⟨tl "Command timed out after 4 minutes",
        [Ev.download bucket key,
          Ev.copyBin bin (tl "/tmp/terraform"),
          Ev.spawn (tl "/tmp/terraform") [tl "init"],
          Ev.copyBin bin (tl "/tmp/terraform"),
          Ev.spawn (tl "/tmp/terraform") [tl "plan", tl "-out=tfplan"],
          Ev.uploadFile bucket (tl "terraform_plans/" ++ rid ++ tl "/tfplan"),
          Ev.copyBin bin (tl "/tmp/terraform"),
          Ev.spawn (tl "/tmp/terraform") [tl "apply", tl "-auto-approve", tl "tfplan"],
          Ev.kill],
        [Ev.publish (tl "Error in Terraform Apply")
          (tl "Failed to apply Terraform code for request " ++ rid ++ tl ": "
            ++ (tl "Terraform apply failed: " ++ tl "Command timed out after 4 minutes"))],
        hres, by rw [htr]; rfl, by simp⟩
  | execError m3 =>
      have htr : (lambda_handler_apply env).1
          = [Ev.download bucket key,
              Ev.copyBin bin (tl "/tmp/terraform"),
              Ev.spawn (tl "/tmp/terraform") [tl "init"],
              Ev.copyBin bin (tl "/tmp/terraform"),
              Ev.spawn (tl "/tmp/terraform") [tl "plan", tl "-out=tfplan"]]
            ++ Ev.uploadFile bucket (tl "terraform_plans/" ++ rid ++ tl "/tfplan")
            :: [Ev.copyBin bin (tl "/tmp/terraform"),
              Ev.spawn (tl "/tmp/terraform") [tl "apply", tl "-auto-approve", tl "tfplan"],
              Ev.putObject bucket (tl "terraform_output/" ++ rid ++ tl "/apply_output.txt") m3,
              Ev.publish (tl "Error in Terraform Apply")
                (tl "Failed to apply Terraform code for request " ++ rid ++ tl ": "
                  ++ (tl "Terraform apply failed: " ++ m3))] := by
        simp [lambda_handler_apply, applier_body, run_terraform_command,
          h1, h2, h3, h4, h5, h6, h7, hoc3]
      have hres : (lambda_handler_apply env).2
          = .error (tl "Terraform apply failed: " ++ m3) := by
        simp [lambda_handler_apply, applier_body, run_terraform_command,
          h1, h2, h3, h4, h5, h6, h7, hoc3]
      refine ⟨⟨_, _, htr, by simp⟩, ⟨m3, by rw [htr]; simp⟩, ?_⟩
      intro _
      refine ⟨m3,
        [Ev.download bucket key,
          Ev.copyBin bin (tl "/tmp/terraform"),
          Ev.spawn (tl "/tmp/terraform") [tl "init"],
          Ev.copyBin bin (tl "/tmp/terraform"),
          Ev.spawn (tl "/tmp/terraform") [tl "plan", tl "-out=tfplan"],
          Ev.uploadFile bucket (tl "terraform_plans/" ++ rid ++ tl "/tfplan"),
          Ev.copyBin bin (tl "/tmp/terraform"),
          Ev.spawn (tl "/tmp/terraform") [tl "apply", tl "-auto-approve", tl "tfplan"]],
        [Ev.publish (tl "Error in Terraform Apply")
          (tl "Failed to apply Terraform code for request " ++ rid ++ tl ": "
            ++ (tl "Terraform apply failed: " ++ m3))],
        hres, by rw [htr]; rfl, by simp⟩

/-- Witness for the C1 theorem at a concrete environment whose apply step
fails after a successful plan. -/
theorem plan_uploaded_and_apply_log_persisted_witness :
    (∃ t1 t2, (lambda_handler_apply envC1).1
        = t1 ++ Ev.uploadFile (tl "b8") (tl "terraform_plans/" ++ tl "r8" ++ tl "/tfplan") :: t2
      ∧ Ev.spawn (tl "/tmp/terraform") [tl "apply", tl "-auto-approve", tl "tfplan"] ∈ t2)
    ∧ (∃ out, Ev.putObject (tl "b8")
        (tl "terraform_output/" ++ tl "r8" ++ tl "/apply_output.txt") out
        ∈ (lambda_handler_apply envC1).1)
    ∧ ((∀ o e, envC1.applyOutcome ≠ .completed 0 o e) →
        ∃ out t3 t4, (lambda_handler_apply envC1).2
            = .error (tl "Terraform apply failed: " ++ out)
          ∧ (lambda_handler_apply envC1).1 = t3
              ++ Ev.putObject (tl "b8")
                (tl "terraform_output/" ++ tl "r8" ++ tl "/apply_output.txt") out :: t4
          ∧ Ev.publish (tl "Error in Terraform Apply")
              (tl "Failed to apply Terraform code for request " ++ tl "r8" ++ tl ": "
                ++ (tl "Terraform apply failed: " ++ out)) ∈ t4) :=
  plan_uploaded_and_apply_log_persisted envC1 (tl "r8") (tl "b8") (tl "k8") (tl "z")
    (tl "/opt/bin/terraform") (tl "i3") [] (tl "p3") []
    rfl rfl rfl rfl rfl rfl rfl

/-- Witness for the C8 theorem at concrete inputs. -/
theorem clean_terraform_of_fencing_witness :
    clean_terraform_file (tl "abc") = tl "abc"
    ∧ clean_terraform_file (fence ++ '\n' :: tl "code" ++ '\n' :: fence) = tl "code"
    ∧ clean_terraform_file (tl "```hcl\nfoo") = pyStrip ((tl "```hcl\nfoo").drop 7) :=
  ⟨clean_terraform_of_fencing.1 (tl "abc") (by decide),
    clean_terraform_of_fencing.2.1 (tl "code") (by decide) (by decide),
    clean_terraform_of_fencing.2.2 (tl "```hcl\nfoo") 6 (by decide) (by decide)
      (by decide) (by decide)⟩

theorem cm_nil (o : Char) (os : List Char) : countMatches (o :: os) [] = 0 := by
  simp [countMatches]

theorem cm_cons (o : Char) (os : List Char) (c : Char) (cs : List Char) :
    countMatches (o :: os) (c :: cs)
      = (if (o :: os) <+: (c :: cs) then 1 else 0) + countMatches (o :: os) cs := rfl

theorem cm_append_le_left (o : Char) (os : List Char) :
    ∀ x y : List Char, countMatches (o :: os) x ≤ countMatches (o :: os) (x ++ y) := by
  intro x y
  induction x with
  | nil => simp [cm_nil]
  | cons c cs ih =>
      have hgoal : (c :: cs) ++ y = c :: (cs ++ y) := List.cons_append c cs y
      rw [hgoal, cm_cons o os c (cs ++ y), cm_cons o os c cs]
      have hif : (if (o :: os) <+: (c :: cs) then 1 else 0)
          ≤ (if (o :: os) <+: c :: (cs ++ y) then 1 else 0) := by
        by_cases h : (o :: os) <+: (c :: cs)
        · have h2 : (o :: os) <+: c :: (cs ++ y) := by
            have h3 := h.trans (List.prefix_append (c :: cs) y)
            rwa [hgoal] at h3
          rw [if_pos h, if_pos h2]
        · rw [if_neg h]
          omega
      omega

theorem cm_append_le_right (o : Char) (os : List Char) :
    ∀ x y : List Char, countMatches (o :: os) y ≤ countMatches (o :: os) (x ++ y) := by
  intro x y
  induction x with
  | nil => simp
  | cons c cs ih =>
      rw [List.cons_append c cs y, cm_cons o os c (cs ++ y)]
      omega

theorem cm_middle_ge (o : Char) (os : List Char) :
    ∀ x y : List Char,
      1 + countMatches (o :: os) y ≤ countMatches (o :: os) (x ++ (o :: os) ++ y) := by
  intro x y
  induction x with
  | nil =>
      have hshape : ([] : List Char) ++ (o :: os) ++ y = o :: (os ++ y) := by simp
      rw [hshape, cm_cons o os o (os ++ y)]
      rw [if_pos (by
        have h1 : (o :: os) <+: (o :: os) ++ y := List.prefix_append _ _
        rwa [List.cons_append o os y] at h1)]
      have := cm_append_le_right o os os y
      omega
  | cons c cs ih =>
      have hshape : (c :: cs) ++ (o :: os) ++ y = c :: (cs ++ (o :: os) ++ y) := by simp
      rw [hshape, cm_cons o os c (cs ++ (o :: os) ++ y)]
      omega

theorem cm_one_decomp (o : Char) (os : List Char) :
    ∀ s : List Char, 1 ≤ countMatches (o :: os) s →
      ∃ u v, s = u ++ (o :: os) ++ v := by
  intro s
  induction s with
  | nil => simp [cm_nil]
  | cons c cs ih =>
      intro h
      by_cases hp : (o :: os) <+: (c :: cs)
      · obtain ⟨t, ht⟩ := hp
        exact ⟨[], t, by simp [← ht]⟩
      · rw [cm_cons o os c cs, if_neg hp] at h
        obtain ⟨u, v, huv⟩ := ih (by omega)
        exact ⟨c :: u, v, by simp [huv]⟩

theorem replaceGo_skip (o : Char) (os new : List Char) :
    ∀ (cs : List Char) (n : Nat),
      replaceGo o os new n cs = replaceGo o os new 0 (cs.drop n) := by
  intro cs
  induction cs with
  | nil =>
      intro n
      cases n <;> rfl
  | cons c cs ih =>
      intro n
      cases n with
      | zero => rfl
      | succ k =>
          show replaceGo o os new k cs = _
          rw [ih k]
          rfl

theorem splitGo_skip (o : Char) (os : List Char) :
    ∀ (cs : List Char) (n : Nat),
      splitGo o os n cs = splitGo o os 0 (cs.drop n) := by
  intro cs
  induction cs with
  | nil =>
      intro n
      cases n <;> rfl
  | cons c cs ih =>
      intro n
      cases n with
      | zero => rfl
      | succ k =>
          show splitGo o os k cs = _
          rw [ih k]
          rfl

theorem replaceNE_nil (o : Char) (os new : List Char) : replaceNE o os new [] = [] := rfl

theorem replaceNE_cons (o : Char) (os new : List Char) (c : Char) (cs : List Char) :
    replaceNE o os new (c :: cs)
      = if (o :: os) <+: (c :: cs) then new ++ replaceNE o os new (cs.drop os.length)
        else c :: replaceNE o os new cs := by
  show replaceGo o os new 0 (c :: cs) = _
  by_cases h : (o :: os) <+: (c :: cs)
  · simp only [replaceGo, if_pos h]
    rw [replaceGo_skip o os new cs os.length]
    rfl
  · simp only [replaceGo, if_neg h]
    rfl

theorem pySplitNE_nil (o : Char) (os : List Char) : pySplitNE o os [] = [[]] := rfl

theorem pySplitNE_cons (o : Char) (os : List Char) (c : Char) (cs : List Char) :
    pySplitNE o os (c :: cs)
      = if (o :: os) <+: (c :: cs) then [] :: pySplitNE o os (cs.drop os.length)
        else
          match pySplitNE o os cs with
          | [] => [[c]]
          | h :: t => (c :: h) :: t := by
  show splitGo o os 0 (c :: cs) = _
  by_cases h : (o :: os) <+: (c :: cs)
  · simp only [splitGo, if_pos h]
    rw [splitGo_skip o os cs os.length]
    rfl
  · simp only [splitGo, if_neg h]
    rfl

theorem replaceNE_no_match (o : Char) (os new : List Char) :
    ∀ s : List Char, countMatches (o :: os) s = 0 → replaceNE o os new s = s := by
  intro s
  induction s with
  | nil => intro _; exact replaceNE_nil o os new
  | cons c cs ih =>
      intro h
      rw [cm_cons o os c cs] at h
      have hp : ¬ ((o :: os) <+: (c :: cs)) := by
        intro hp
        rw [if_pos hp] at h
        omega
      rw [if_neg hp] at h
      rw [replaceNE_cons, if_neg hp, ih (by omega)]

theorem pySplitNE_no_match (o : Char) (os : List Char) :
    ∀ s : List Char, countMatches (o :: os) s = 0 → pySplitNE o os s = [s] := by
  intro s
  induction s with
  | nil => intro _; exact pySplitNE_nil o os
  | cons c cs ih =>
      intro h
      rw [cm_cons o os c cs] at h
      have hp : ¬ ((o :: os) <+: (c :: cs)) := by
        intro hp
        rw [if_pos hp] at h
        omega
      rw [if_neg hp] at h
      rw [pySplitNE_cons, if_neg hp, ih (by omega)]

theorem replace_unique (o : Char) (os new : List Char) :
    ∀ u v : List Char,
      countMatches (o :: os) (u ++ (o :: os) ++ v) = 1 →
      replaceNE o os new (u ++ (o :: os) ++ v) = u ++ new ++ v := by
  intro u
  induction u with
  | nil =>
      intro v h
      have hshape : ([] : List Char) ++ (o :: os) ++ v = o :: (os ++ v) := by simp
      rw [hshape] at h ⊢
      have hp : (o :: os) <+: o :: (os ++ v) := by
        have h1 : (o :: os) <+: (o :: os) ++ v := List.prefix_append _ _
        rwa [List.cons_append o os v] at h1
      rw [cm_cons o os o (os ++ v), if_pos hp] at h
      have hv : countMatches (o :: os) v = 0 := by
        have := cm_append_le_right o os os v
        omega
      rw [replaceNE_cons, if_pos hp, List.drop_left os v, replaceNE_no_match o os new v hv]
      simp
  | cons c cs ih =>
      intro v h
      have hshape : (c :: cs) ++ (o :: os) ++ v = c :: (cs ++ (o :: os) ++ v) := by simp
      rw [hshape] at h ⊢
      have hp : ¬ ((o :: os) <+: c :: (cs ++ (o :: os) ++ v)) := by
        intro hp
        rw [cm_cons o os c (cs ++ (o :: os) ++ v), if_pos hp] at h
        have := cm_middle_ge o os cs v
        omega
      rw [cm_cons o os c (cs ++ (o :: os) ++ v), if_neg hp] at h
      rw [replaceNE_cons, if_neg hp, ih v (by omega)]
      simp

theorem pySplitNE_unique (o : Char) (os : List Char) :
    ∀ u v : List Char,
      countMatches (o :: os) (u ++ (o :: os) ++ v) = 1 →
      pySplitNE o os (u ++ (o :: os) ++ v) = [u, v] := by
  intro u
  induction u with
  | nil =>
      intro v h
      have hshape : ([] : List Char) ++ (o :: os) ++ v = o :: (os ++ v) := by simp
      rw [hshape] at h ⊢
      have hp : (o :: os) <+: o :: (os ++ v) := by
        have h1 : (o :: os) <+: (o :: os) ++ v := List.prefix_append _ _
        rwa [List.cons_append o os v] at h1
      rw [cm_cons o os o (os ++ v), if_pos hp] at h
      have hv : countMatches (o :: os) v = 0 := by
        have := cm_append_le_right o os os v
        omega
      rw [pySplitNE_cons, if_pos hp, List.drop_left os v, pySplitNE_no_match o os v hv]
  | cons c cs ih =>
      intro v h
      have hshape : (c :: cs) ++ (o :: os) ++ v = c :: (cs ++ (o :: os) ++ v) := by simp
      rw [hshape] at h ⊢
      have hp : ¬ ((o :: os) <+: c :: (cs ++ (o :: os) ++ v)) := by
        intro hp
        rw [cm_cons o os c (cs ++ (o :: os) ++ v), if_pos hp] at h
        have := cm_middle_ge o os cs v
        omega
      rw [cm_cons o os c (cs ++ (o :: os) ++ v), if_neg hp] at h
      rw [pySplitNE_cons, if_neg hp, ih v (by omega)]

theorem pySplitNE_ne_nil (o : Char) (os : List Char) :
    ∀ s : List Char, pySplitNE o os s ≠ [] := by
  intro s
  induction s with
  | nil => rw [pySplitNE_nil]; simp
  | cons c cs ih =>
      rw [pySplitNE_cons]
      by_cases hp : (o :: os) <+: (c :: cs)
      · rw [if_pos hp]; simp
      · rw [if_neg hp]
        cases hrec : pySplitNE o os cs with
        | nil => simp
        | cons h t => simp

theorem pySplitChar_head (c : Char) :
    ∀ s : List Char, (pySplitNE c [] s).getD 0 [] = s.takeWhile (fun b => b ≠ c) := by
  intro s
  induction s with
  | nil => rw [pySplitNE_nil]; rfl
  | cons x xs ih =>
      rw [pySplitNE_cons]
      by_cases hx : x = c
      · subst hx
        rw [if_pos (by simp [List.cons_prefix_cons])]
        simp [List.takeWhile_cons]
      · rw [if_neg (by
          rw [List.cons_prefix_cons]
          intro hcontra
          exact hx hcontra.1.symm)]
        cases hrec : pySplitNE c [] xs with
        | nil => exact absurd hrec (pySplitNE_ne_nil c [] xs)
        | cons h t =>
            rw [hrec] at ih
            rw [List.takeWhile_cons, if_pos (by simp [hx])]
            simp only [List.getD] at ih ⊢
            simp at ih ⊢
            exact ih

theorem pyRstrip_decomp (l : List Char) : ∃ d, l = pyRstrip l ++ d := by
  refine ⟨(l.reverse.takeWhile pyIsSpace).reverse, ?_⟩
  unfold pyRstrip
  conv_lhs => rw [← List.reverse_reverse l,
    ← List.takeWhile_append_dropWhile pyIsSpace l.reverse]
  rw [List.reverse_append]

theorem takeWhile_append_all (p : Char → Bool) :
    ∀ (x y : List Char), (∀ a ∈ x, p a = true) →
      (x ++ y).takeWhile p = x ++ y.takeWhile p := by
  intro x y
  induction x with
  | nil => intro _; rfl
  | cons a l ih =>
      intro h
      rw [List.cons_append, List.takeWhile_cons, if_pos (h a (List.mem_cons_self a l)),
        ih (fun b hb => h b (List.mem_cons_of_mem a hb))]
      rfl

theorem cm_skip (o : Char) (os : List Char) :
    ∀ (L y : List Char), (∀ ch ∈ L, ch ≠ o) →
      countMatches (o :: os) (L ++ y) = countMatches (o :: os) y := by
  intro L y
  induction L with
  | nil => intro _; rfl
  | cons l ls ih =>
      intro h
      rw [List.cons_append, cm_cons o os l (ls ++ y)]
      have hp : ¬ ((o :: os) <+: l :: (ls ++ y)) := by
        intro hp
        rw [List.cons_prefix_cons] at hp
        exact h l (List.mem_cons_self l ls) hp.1.symm
      rw [if_neg hp, ih (fun b hb => h b (List.mem_cons_of_mem l hb))]
      simp

theorem prefix_through_barrier (o : Char) (os : List Char) (l : Char) (ls : List Char)
    (hl : l ∉ (o :: os)) :
    ∀ (x y : List Char), ((o :: os) <+: x ++ (l :: ls) ++ y) ↔ ((o :: os) <+: x) := by
  intro x y
  constructor
  · intro h
    by_cases hlen : (o :: os).length ≤ x.length
    · have htake := List.prefix_iff_eq_take.mp h
      have htx : (x ++ (l :: ls) ++ y).take (o :: os).length = x.take (o :: os).length := by
        rw [List.append_assoc]
        exact List.take_append_of_le_length hlen
      rw [htx] at htake
      exact List.prefix_iff_eq_take.mpr htake
    · exfalso
      have htake := List.prefix_iff_eq_take.mp h
      rw [List.append_assoc] at htake
      have hx : (o :: os).length = x.length + ((o :: os).length - x.length) := by omega
      rw [hx, List.take_append ((o :: os).length - x.length)] at htake
      have hm : (o :: os).length - x.length = ((o :: os).length - x.length - 1) + 1 := by
        omega
      rw [hm, List.cons_append, List.take_succ_cons] at htake
      apply hl
      rw [htake]
      exact List.mem_append.mpr (Or.inr (List.mem_cons_self l _))
  · intro h
    exact h.trans (by rw [List.append_assoc]; exact List.prefix_append x _)

theorem cm_insulated (o : Char) (os : List Char) (l : Char) (ls : List Char)
    (ho : o ∉ (l :: ls)) (hl : l ∉ (o :: os)) :
    ∀ (x y : List Char),
      countMatches (o :: os) (x ++ (l :: ls) ++ y)
        = countMatches (o :: os) x + countMatches (o :: os) y := by
  intro x y
  induction x with
  | nil =>
      rw [cm_nil]
      simp only [List.nil_append]
      rw [cm_skip o os (l :: ls) y (fun ch hch heq => ho (heq ▸ hch))]
      simp
  | cons c cs ih =>
      have hshape : (c :: cs) ++ (l :: ls) ++ y = c :: (cs ++ (l :: ls) ++ y) := by simp
      rw [hshape, cm_cons o os c (cs ++ (l :: ls) ++ y), cm_cons o os c cs, ih]
      have hiff := prefix_through_barrier o os l ls hl (c :: cs) y
      rw [hshape] at hiff
      rw [if_congr hiff rfl rfl]
      omega

theorem cm_empty_pattern : ∀ s : List Char, countMatches [] s = s.length + 1 := by
  intro s
  induction s with
  | nil => simp [countMatches]
  | cons c cs ih =>
      have h : countMatches [] (c :: cs)
          = (if ([] : List Char) <+: (c :: cs) then 1 else 0) + countMatches [] cs := rfl
      rw [h, if_pos List.nil_prefix, ih]
      simp
      omega

theorem blockOf_eq_of_unique (content u v : List Char)
    (huv : content = u ++ providerHeader ++ v)
    (hcm : countMatches providerHeader content = 1) :
    blockOf content = v.takeWhile (fun b => b ≠ '\x7d') := by
  have hPH : providerHeader = 'p' :: tl "rovider \"aws\"" := by decide
  have h7 : tl "\x7d" = ['\x7d'] := by decide
  have hsplit : pySplit providerHeader content = [u, v] := by
    rw [hPH]
    show pySplitNE 'p' (tl "rovider \"aws\"") content = [u, v]
    rw [huv, hPH]
    apply pySplitNE_unique
    rw [← hPH, ← huv]
    exact hcm
  unfold blockOf
  rw [hsplit]
  have hget : ([u, v].getD 1 []) = v := rfl
  rw [hget, h7]
  exact pySplitChar_head '\x7d' v

theorem create_provider_config_rewrite (content : List Char)
    (h1 : providerHeader <:+: content)
    (h2 : ¬ (tl "region" <:+: blockOf content)) :
    create_provider_config content
      = (pyReplace content (blockOf content) (pyRstrip (blockOf content) ++ regionLine),
          versionsNoProvider) := by
  unfold blockOf at h2
  unfold create_provider_config
  rw [if_pos h1]
  dsimp only
  rw [if_pos h2]
  unfold blockOf
  rfl

/-- C4 (amended): for a main source with exactly one provider-header
occurrence, whose block slice (the text between that header and the first
closing brace after it) lacks a region setting and occurs exactly once as
a substring of the source, the rewritten main source contains exactly one
provider-header occurrence and its block slice contains a region setting;
and for a main source whose provider block already specifies a region,
the main source is left untouched and the synthesized versions file
contains no provider block. -/
theorem provider_region_synthesis_amended :
    (∀ content : List Char,
      countMatches providerHeader content = 1 →
      ¬ (tl "region" <:+: blockOf content) →
      countMatches (blockOf content) content = 1 →
      countMatches providerHeader (create_provider_config content).1 = 1
      ∧ tl "region" <:+: blockOf (create_provider_config content).1)
    ∧ (∀ content : List Char,
      providerHeader <:+: content →
      tl "region" <:+: blockOf content →
      (create_provider_config content).1 = content
      ∧ ¬ (providerHeader <:+: (create_provider_config content).2)) := by
  constructor
  · intro content hcm hreg hblk
    have hPH : providerHeader = 'p' :: tl "rovider \"aws\"" := by decide
    have hRL : regionLine = '\n' :: tl "  region = \"us-east-1\"\n" := by decide
    have hPHlen : providerHeader.length = 14 := by decide
    have hcm1 : 1 ≤ countMatches ('p' :: tl "rovider \"aws\"") content := by
      rw [← hPH, hcm]
    obtain ⟨u, v, huv0⟩ := cm_one_decomp 'p' (tl "rovider \"aws\"") content hcm1
    have huv : content = u ++ providerHeader ++ v := by rw [hPH]; exact huv0
    have hblock : blockOf content = v.takeWhile (fun b => b ≠ '\x7d') :=
      blockOf_eq_of_unique content u v huv hcm
    have hbne : blockOf content ≠ [] := by
      intro hb
      rw [hb, cm_empty_pattern content] at hblk
      have hlen := congrArg List.length huv
      simp only [List.length_append] at hlen
      omega
    obtain ⟨bo, bos, hbshape⟩ : ∃ bo bos, blockOf content = bo :: bos := by
      cases hbc : blockOf content with
      | nil => exact absurd hbc hbne
      | cons bo bos => exact ⟨bo, bos, rfl⟩
    obtain ⟨d, hbd⟩ := pyRstrip_decomp (blockOf content)
    rw [hbshape] at hbd
    have hv : v = (bo :: bos) ++ v.dropWhile (fun b => b ≠ '\x7d') := by
      rw [← hbshape, hblock]
      exact (List.takeWhile_append_dropWhile _ _).symm
    have hinf : providerHeader <:+: content := ⟨u, v, huv.symm⟩
    have hrw := create_provider_config_rewrite content hinf hreg
    have hcontent3 : content = (u ++ providerHeader) ++ (bo :: bos)
        ++ v.dropWhile (fun b => b ≠ '\x7d') := by
      conv_lhs => rw [huv]
      conv_lhs => rw [hv]
      simp [List.append_assoc]
    have hblk' : countMatches (bo :: bos) content = 1 := by
      rw [← hbshape]
      exact hblk
    have hblk2 : countMatches (bo :: bos) ((u ++ providerHeader) ++ (bo :: bos)
        ++ v.dropWhile (fun b => b ≠ '\x7d')) = 1 := by
      rw [← hcontent3]
      exact hblk'
    have hrepl : pyReplace content (bo :: bos) (pyRstrip (bo :: bos) ++ regionLine)
        = (u ++ providerHeader) ++ (pyRstrip (bo :: bos) ++ regionLine)
          ++ v.dropWhile (fun b => b ≠ '\x7d') := by
      show replaceNE bo bos (pyRstrip (bo :: bos) ++ regionLine) content = _
      conv_lhs => rw [hcontent3]
      exact replace_unique bo bos _ (u ++ providerHeader) _ hblk2
    have hres1 : (create_provider_config content).1
        = (u ++ providerHeader ++ pyRstrip (bo :: bos)) ++ regionLine
          ++ v.dropWhile (fun b => b ≠ '\x7d') := by
      rw [hrw]
      show pyReplace content (blockOf content) (pyRstrip (blockOf content) ++ regionLine) = _
      rw [hbshape, hrepl]
      simp [List.append_assoc]
    have hc2 : (u ++ providerHeader ++ pyRstrip (bo :: bos))
        ++ (d ++ v.dropWhile (fun b => b ≠ '\x7d')) = content := by
      conv_rhs => rw [hcontent3]
      conv_rhs => rw [hbd]
      simp [List.append_assoc]
    have hmid := cm_middle_ge 'p' (tl "rovider \"aws\"") u (pyRstrip (bo :: bos))
    rw [← hPH] at hmid
    have hle := cm_append_le_left 'p' (tl "rovider \"aws\"")
      (u ++ providerHeader ++ pyRstrip (bo :: bos))
      (d ++ v.dropWhile (fun b => b ≠ '\x7d'))
    rw [← hPH, hc2] at hle
    rw [hcm] at hle
    have hx1 : countMatches providerHeader (u ++ providerHeader ++ pyRstrip (bo :: bos)) = 1 := by
      omega
    have hc3 : u ++ providerHeader ++ ((bo :: bos) ++ v.dropWhile (fun b => b ≠ '\x7d'))
        = content := by
      conv_rhs => rw [hcontent3]
      simp [List.append_assoc]
    have hmid2 := cm_middle_ge 'p' (tl "rovider \"aws\"") u
      ((bo :: bos) ++ v.dropWhile (fun b => b ≠ '\x7d'))
    rw [← hPH, hc3, hcm] at hmid2
    have hsub := cm_append_le_right 'p' (tl "rovider \"aws\"") (bo :: bos)
      (v.dropWhile (fun b => b ≠ '\x7d'))
    rw [← hPH] at hsub
    have hrest : countMatches providerHeader (v.dropWhile (fun b => b ≠ '\x7d')) = 0 := by
      omega
    have hins := cm_insulated 'p' (tl "rovider \"aws\"") '\n' (tl "  region = \"us-east-1\"\n")
      (by decide) (by decide)
      (u ++ providerHeader ++ pyRstrip (bo :: bos)) (v.dropWhile (fun b => b ≠ '\x7d'))
    rw [← hPH, ← hRL] at hins
    have hconc1 : countMatches providerHeader (create_provider_config content).1 = 1 := by
      rw [hres1, hins, hx1, hrest]
    refine ⟨hconc1, ?_⟩
    have hresult_decomp : (create_provider_config content).1
        = u ++ providerHeader
          ++ (pyRstrip (bo :: bos) ++ regionLine ++ v.dropWhile (fun b => b ≠ '\x7d')) := by
      rw [hres1]
      simp [List.append_assoc]
    have hb2 := blockOf_eq_of_unique ((create_provider_config content).1) u
      (pyRstrip (bo :: bos) ++ regionLine ++ v.dropWhile (fun b => b ≠ '\x7d'))
      hresult_decomp hconc1
    have hwmem : ∀ a ∈ pyRstrip (bo :: bos), (fun b => decide (b ≠ '\x7d')) a = true := by
      intro a ha
      have ha2 : a ∈ (bo :: bos) := by
        rw [hbd]
        exact List.mem_append.mpr (Or.inl ha)
      rw [← hbshape, hblock] at ha2
      have h3 := List.mem_takeWhile_imp ha2
      simpa using h3
    have hLmem : ∀ a ∈ regionLine, (fun b => decide (b ≠ '\x7d')) a = true := by decide
    have ht0 : pyRstrip (bo :: bos) ++ regionLine ++ v.dropWhile (fun b => decide (b ≠ '\x7d'))
        = pyRstrip (bo :: bos) ++ (regionLine ++ v.dropWhile (fun b => decide (b ≠ '\x7d'))) := by
      simp [List.append_assoc]
    have ht1 : (pyRstrip (bo :: bos)
          ++ (regionLine ++ v.dropWhile (fun b => decide (b ≠ '\x7d')))).takeWhile
            (fun b => decide (b ≠ '\x7d'))
        = pyRstrip (bo :: bos)
          ++ (regionLine ++ v.dropWhile (fun b => decide (b ≠ '\x7d'))).takeWhile
            (fun b => decide (b ≠ '\x7d')) :=
      takeWhile_append_all _ _ _ hwmem
    have ht2 : (regionLine ++ v.dropWhile (fun b => decide (b ≠ '\x7d'))).takeWhile
          (fun b => decide (b ≠ '\x7d'))
        = regionLine ++ (v.dropWhile (fun b => decide (b ≠ '\x7d'))).takeWhile
            (fun b => decide (b ≠ '\x7d')) :=
      takeWhile_append_all _ _ _ hLmem
    rw [hb2, ht0, ht1, ht2]
    have hreg1 : tl "region" <:+: regionLine := by decide
    have hreg2 : regionLine <:+: pyRstrip (bo :: bos)
        ++ (regionLine ++ (v.dropWhile (fun b => decide (b ≠ '\x7d'))).takeWhile
            (fun b => decide (b ≠ '\x7d'))) :=
      ⟨pyRstrip (bo :: bos),
        (v.dropWhile (fun b => decide (b ≠ '\x7d'))).takeWhile (fun b => decide (b ≠ '\x7d')),
        by simp [List.append_assoc]⟩
    exact hreg1.trans hreg2
  · intro content h1 h2
    have h2' : ¬¬ (tl "region"
        <:+: (pySplit (tl "\x7d") ((pySplit providerHeader content).getD 1 [])).getD 0 []) := by
      unfold blockOf at h2
      exact not_not_intro h2
    have hcfg : create_provider_config content = (content, versionsNoProvider) := by
      unfold create_provider_config
      rw [if_pos h1]
      dsimp only
      rw [if_neg h2']
    rw [hcfg]
    refine ⟨rfl, ?_⟩
    show ¬ (providerHeader <:+: versionsNoProvider)
    decide

/-- C4 counterexample: the main source `provider "aws"}` contains a
provider block (header) whose block slice lacks a region setting, yet
after synthesis the main source contains no provider-header occurrence at
all — the empty block slice makes the Python `replace` insert the region
line between every character, destroying the header — so the claim as
stated ("exactly one provider block containing a region") is false. -/
theorem provider_rewrite_fails_on_degenerate_block :
    providerHeader <:+: tl "provider \"aws\"\x7d"
    ∧ ¬ (tl "region" <:+: blockOf (tl "provider \"aws\"\x7d"))
    ∧ countMatches providerHeader
        (create_provider_config (tl "provider \"aws\"\x7d")).1 = 0 := by
  refine ⟨by decide, by decide, by decide⟩

/-- Witness for the amended C4 theorem at concrete sources. -/
theorem provider_region_synthesis_amended_witness :
    (countMatches providerHeader (create_provider_config contentW).1 = 1
      ∧ tl "region" <:+: blockOf (create_provider_config contentW).1)
    ∧ ((create_provider_config contentR).1 = contentR
      ∧ ¬ (providerHeader <:+: (create_provider_config contentR).2)) :=
  ⟨provider_region_synthesis_amended.1 contentW (by decide) (by decide) (by decide),
    provider_region_synthesis_amended.2 contentR (by decide) (by decide)⟩

/-- C6: the `output` subcommand is attempted only after a successful
`apply` — any output-subprocess spawn in a run's trace implies the apply
outcome was a success — and a failing `output` does not fail the overall
stage: the handler still returns the handoff record with status SUCCESS
(the output spawn sitting after the apply spawn in the trace), the
failure being logged only. -/
theorem output_only_after_apply_and_nonfatal :
    (∀ env : ApplyEnv,
      Ev.spawn (tl "/tmp/terraform") [tl "output", tl "-json"] ∈ (lambda_handler_apply env).1 →
      ∃ o e, env.applyOutcome = .completed 0 o e)
    ∧ (∀ (env : ApplyEnv) (rid bucket key content bin o1 e1 o2 e2 o3 e3 : List Char),
      env.event.requestId = some rid → env.event.s3Bucket = some bucket →
      env.event.s3TerraformKey = some key → env.downloadResult = .ok content →
      resolveTerraformBin env.fs = .ok bin →
      env.initOutcome = .completed 0 o1 e1 →
      env.planOutcome = .completed 0 o2 e2 →
      env.applyOutcome = .completed 0 o3 e3 →
      (∀ o e, env.outputOutcome ≠ .completed 0 o e) →
      (lambda_handler_apply env).2
        = .ok ⟨rid, bucket, key,
            tl "terraform_output/" ++ rid ++ tl "/outputs.json",
            tl "terraform_output/" ++ rid ++ tl "/apply_output.txt",
            tl "SUCCESS", tl "Successfully deployed infrastructure using Terraform"⟩
      ∧ ∃ t1 t2, (lambda_handler_apply env).1
          = t1 ++ Ev.spawn (tl "/tmp/terraform") [tl "apply", tl "-auto-approve", tl "tfplan"] :: t2
        ∧ Ev.spawn (tl "/tmp/terraform") [tl "output", tl "-json"] ∈ t2) := by
  constructor
  · intro env hmem
    have hnp : tl "output" ≠ tl "plan" := by decide
    rcases env with ⟨⟨rid?, bucket?, key?⟩, dl, fs, oc1, oc2, oc3, oc4⟩
    cases rid? with
    | none => simp [lambda_handler_apply, applier_body] at hmem
    | some rid =>
    cases bucket? with
    | none => simp [lambda_handler_apply, applier_body] at hmem
    | some bucket =>
    cases key? with
    | none => simp [lambda_handler_apply, applier_body] at hmem
    | some key =>
    cases dl with
    | error e => simp [lambda_handler_apply, applier_body] at hmem
    | ok content =>
    cases hres : resolveTerraformBin fs with
    | error e =>
        simp [lambda_handler_apply, applier_body, run_terraform_command, hres] at hmem
    | ok bin =>
    cases oc1 with
    | timedOut =>
        simp [lambda_handler_apply, applier_body, run_terraform_command, hres] at hmem
    | execError m =>
        simp [lambda_handler_apply, applier_body, run_terraform_command, hres] at hmem
    | completed rc1 o1 e1 =>
    by_cases hrc1 : rc1 = 0
    · subst hrc1
      cases oc2 with
      | timedOut =>
          simp [lambda_handler_apply, applier_body, run_terraform_command, hres, hnp] at hmem
      | execError m =>
          simp [lambda_handler_apply, applier_body, run_terraform_command, hres, hnp] at hmem
      | completed rc2 o2 e2 =>
      by_cases hrc2 : rc2 = 0
      · subst hrc2
        cases oc3 with
        | completed rc3 o3 e3 =>
            by_cases hrc3 : rc3 = 0
            · exact ⟨o3, e3, by rw [hrc3]⟩
            · simp [lambda_handler_apply, applier_body, run_terraform_command,
                hres, hrc3, hnp] at hmem
        | timedOut =>
            simp [lambda_handler_apply, applier_body, run_terraform_command, hres, hnp] at hmem
        | execError m =>
            simp [lambda_handler_apply, applier_body, run_terraform_command, hres, hnp] at hmem
      · simp [lambda_handler_apply, applier_body, run_terraform_command, hres, hrc2, hnp] at hmem
    · simp [lambda_handler_apply, applier_body, run_terraform_command, hres, hrc1] at hmem
  · intro env rid bucket key content bin o1 e1 o2 e2 o3 e3 h1 h2 h3 h4 h5 h6 h7 h8 h9
    cases hoc : env.outputOutcome with
    | completed rc4 o4 e4 =>
        by_cases hrc4 : rc4 = 0
        · subst hrc4
          exact absurd hoc (h9 o4 e4)
        · have htr : (lambda_handler_apply env).1
              = [Ev.download bucket key,
                  Ev.copyBin bin (tl "/tmp/terraform"),
                  Ev.spawn (tl "/tmp/terraform") [tl "init"],
                  Ev.copyBin bin (tl "/tmp/terraform"),
                  Ev.spawn (tl "/tmp/terraform") [tl "plan", tl "-out=tfplan"],
                  Ev.uploadFile bucket (tl "terraform_plans/" ++ rid ++ tl "/tfplan"),
                  Ev.copyBin bin (tl "/tmp/terraform")]
                ++ Ev.spawn (tl "/tmp/terraform") [tl "apply", tl "-auto-approve", tl "tfplan"]
                :: [Ev.putObject bucket
                    (tl "terraform_output/" ++ rid ++ tl "/apply_output.txt") o3,
                  Ev.copyBin bin (tl "/tmp/terraform"),
                  Ev.spawn (tl "/tmp/terraform") [tl "output", tl "-json"],
                  Ev.publish (tl "Terraform Deployment " ++ rid ++ tl " Completed")
                    (tl "\nTerraform deployment completed successfully for request " ++ rid
                      ++ tl ".\n\nOutputs have been stored at s3://" ++ bucket
                      ++ tl "/terraform_output/" ++ rid
                      ++ tl "/outputs.json\nApply logs have been stored at s3://" ++ bucket
                      ++ tl "/terraform_output/" ++ rid ++ tl "/apply_output.txt\n                ")] := by
            simp [lambda_handler_apply, applier_body, run_terraform_command,
              h1, h2, h3, h4, h5, h6, h7, h8, hoc, hrc4]
          refine ⟨?_, _, _, htr, by simp⟩
          simp [lambda_handler_apply, applier_body, run_terraform_command,
            h1, h2, h3, h4, h5, h6, h7, h8, hoc, hrc4]
    | timedOut =>
        have htr : (lambda_handler_apply env).1
            = [Ev.download bucket key,
                Ev.copyBin bin (tl "/tmp/terraform"),
                Ev.spawn (tl "/tmp/terraform") [tl "init"],
                Ev.copyBin bin (tl "/tmp/terraform"),
                Ev.spawn (tl "/tmp/terraform") [tl "plan", tl "-out=tfplan"],
                Ev.uploadFile bucket (tl "terraform_plans/" ++ rid ++ tl "/tfplan"),
                Ev.copyBin bin (tl "/tmp/terraform")]
              ++ Ev.spawn (tl "/tmp/terraform") [tl "apply", tl "-auto-approve", tl "tfplan"]
              :: [Ev.putObject bucket
                  (tl "terraform_output/" ++ rid ++ tl "/apply_output.txt") o3,
                Ev.copyBin bin (tl "/tmp/terraform"),
                Ev.spawn (tl "/tmp/terraform") [tl "output", tl "-json"],
                Ev.kill,
                Ev.publish (tl "Terraform Deployment " ++ rid ++ tl " Completed")
                  (tl "\nTerraform deployment completed successfully for request " ++ rid
                    ++ tl ".\n\nOutputs have been stored at s3://" ++ bucket
                    ++ tl "/terraform_output/" ++ rid
                    ++ tl "/outputs.json\nApply logs have been stored at s3://" ++ bucket
                    ++ tl "/terraform_output/" ++ rid ++ tl "/apply_output.txt\n                ")] := by
          simp [lambda_handler_apply, applier_body, run_terraform_command,
            h1, h2, h3, h4, h5, h6, h7, h8, hoc]
        refine ⟨?_, _, _, htr, by simp⟩
        simp [lambda_handler_apply, applier_body, run_terraform_command,
          h1, h2, h3, h4, h5, h6, h7, h8, hoc]
    | execError m4 =>
        have htr : (lambda_handler_apply env).1
            = [Ev.download bucket key,
                Ev.copyBin bin (tl "/tmp/terraform"),
                Ev.spawn (tl "/tmp/terraform") [tl "init"],
                Ev.copyBin bin (tl "/tmp/terraform"),
                Ev.spawn (tl "/tmp/terraform") [tl "plan", tl "-out=tfplan"],
                Ev.uploadFile bucket (tl "terraform_plans/" ++ rid ++ tl "/tfplan"),
                Ev.copyBin bin (tl "/tmp/terraform")]
              ++ Ev.spawn (tl "/tmp/terraform") [tl "apply", tl "-auto-approve", tl "tfplan"]
              :: [Ev.putObject bucket
                  (tl "terraform_output/" ++ rid ++ tl "/apply_output.txt") o3,
                Ev.copyBin bin (tl "/tmp/terraform"),
                Ev.spawn (tl "/tmp/terraform") [tl "output", tl "-json"],
                Ev.publish (tl "Terraform Deployment " ++ rid ++ tl " Completed")
                  (tl "\nTerraform deployment completed successfully for request " ++ rid
                    ++ tl ".\n\nOutputs have been stored at s3://" ++ bucket
                    ++ tl "/terraform_output/" ++ rid
                    ++ tl "/outputs.json\nApply logs have been stored at s3://" ++ bucket
                    ++ tl "/terraform_output/" ++ rid ++ tl "/apply_output.txt\n                ")] := by
          simp [lambda_handler_apply, applier_body, run_terraform_command,
            h1, h2, h3, h4, h5, h6, h7, h8, hoc]
        refine ⟨?_, _, _, htr, by simp⟩
        simp [lambda_handler_apply, applier_body, run_terraform_command,
          h1, h2, h3, h4, h5, h6, h7, h8, hoc]

/-- Witness for the C6 theorem at a concrete environment whose apply
succeeds and whose `output` subcommand exits nonzero. -/
theorem output_only_after_apply_and_nonfatal_witness :
    (∃ o e, envC6.applyOutcome = ExecOutcome.completed 0 o e)
    ∧ ((lambda_handler_apply envC6).2
        = .ok ⟨tl "r6", tl "b6", tl "k6",
            tl "terraform_output/" ++ tl "r6" ++ tl "/outputs.json",
            tl "terraform_output/" ++ tl "r6" ++ tl "/apply_output.txt",
            tl "SUCCESS", tl "Successfully deployed infrastructure using Terraform"⟩
      ∧ ∃ t1 t2, (lambda_handler_apply envC6).1
          = t1 ++ Ev.spawn (tl "/tmp/terraform") [tl "apply", tl "-auto-approve", tl "tfplan"] :: t2
        ∧ Ev.spawn (tl "/tmp/terraform") [tl "output", tl "-json"] ∈ t2) :=
  ⟨output_only_after_apply_and_nonfatal.1 envC6 (by decide),
    output_only_after_apply_and_nonfatal.2 envC6 (tl "r6") (tl "b6") (tl "k6") (tl "x")
      (tl "/opt/bin/terraform") (tl "i") [] (tl "p") [] (tl "a") []
      rfl rfl rfl rfl rfl rfl rfl rfl
      (fun o e h => by injection h with h1 _ _; exact absurd h1 (by decide))⟩
